import Mathlib

/-! # RISC-V simulator: fetch, decode and the simulation loop

A shallow embedding of `Lab2-RISCV_Simulator/src/Simulator.cpp`.

* `uint32_t` / `uint64_t` values are `Nat`; the places where the C++ arithmetic
  can leave the width carry an explicit `% 2 ^ 32` / `% 2 ^ 64`.
* `int32_t` / `int64_t` values are `Int`; conversions are the two's-complement
  reinterpretations `int32_t` and `int64_t` below.
* A local variable that the C++ code declares without initialiser
  (`op1`, `op2`, `offset`, `dest` in `Simulator::decode`) is an `Option Int`:
  `none` until the first assignment.
* `exit(..)` ends the run: the stage returns `Outcome.exited` together with the
  processor state at the moment of the call.
* Console output (`printf`, `dbgprintf`, the disassembly string `inststr`, the
  single-step prompt) has no effect on the processor state and is left out.
-/

namespace RISCV

/-! ## The instruction set (`Simulator.h`) and the mnemonic table -/

/-- Modelled from the spec: the enumeration `Inst` is declared in `Simulator.h`,
which is not part of the sources. The variants are the ones the spec lists for
the decoded-instruction record, in that order, followed by the `UNKNOWN` tag
that `Simulator::decode` uses as the initial value of `insttype`. -/
inductive Inst
  | LUI | AUIPC | JAL | JALR
  | BEQ | BNE | BLT | BGE | BLTU | BGEU
  | LB | LH | LW | LD | LBU | LHU
  | SB | SH | SW | SD
  | ADDI | SLTI | SLTIU | XORI | ORI | ANDI | SLLI | SRLI | SRAI
  | ADD | SUB | SLL | SLT | SLTU | XOR | SRL | SRA | OR | AND
  | ECALL | ADDIW | MUL | MULH | DIV | REM
  | UNKNOWN
  deriving DecidableEq

/-- Modelled from the spec: the numeric value of each enumerator of `Inst`
(declared in the absent `Simulator.h`), numbered from 0 in the order
`LUI, AUIPC, JAL, ..., DIV, REM`. `UNKNOWN` is not a variant of the instruction
set and has no slot in the mnemonic table: its value is `none` here. -/
def Inst.ordinal : Inst → Option Nat
  | .LUI => some 0 | .AUIPC => some 1 | .JAL => some 2 | .JALR => some 3
  | .BEQ => some 4 | .BNE => some 5 | .BLT => some 6 | .BGE => some 7
  | .BLTU => some 8 | .BGEU => some 9
  | .LB => some 10 | .LH => some 11 | .LW => some 12 | .LD => some 13
  | .LBU => some 14 | .LHU => some 15
  | .SB => some 16 | .SH => some 17 | .SW => some 18 | .SD => some 19
  | .ADDI => some 20 | .SLTI => some 21 | .SLTIU => some 22 | .XORI => some 23
  | .ORI => some 24 | .ANDI => some 25 | .SLLI => some 26 | .SRLI => some 27
  | .SRAI => some 28
  | .ADD => some 29 | .SUB => some 30 | .SLL => some 31 | .SLT => some 32
  | .SLTU => some 33 | .XOR => some 34 | .SRL => some 35 | .SRA => some 36
  | .OR => some 37 | .AND => some 38
  | .ECALL => some 39 | .ADDIW => some 40 | .MUL => some 41 | .MULH => some 42
  | .DIV => some 43 | .REM => some 44
  | .UNKNOWN => none

/-- The table `RISCV::INSTNAME` (Simulator.cpp, lines 43-89). -/
def INSTNAME : List String :=
  [ "lui", "auipc", "jal", "jalr",
    "beq", "bne", "blt", "bge", "bltu", "bgeu",
    "lb", "lh", "lw", "ld", "lbu", "lhu",
    "sb", "sh", "sw", "sd",
    "addi", "slti", "sltiu", "xori", "ori", "andi", "slli", "srli", "srai",
    "add", "sub", "sll", "slt", "sltu", "xor", "srl", "sra", "or", "and",
    "ecall", "addiw", "mul", "mulh", "div", "rem" ]

/-- The read `INSTNAME[insttype]`: `none` when the index is outside the table. -/
def instnameOf (insttype : Inst) : Option String :=
  match insttype.ordinal with
  | some i => INSTNAME.get? i
  | none => none

/-! ## Opcode constants (`Simulator.h`) -/

/-- Modelled from the spec: `OP_REG` is declared in the absent `Simulator.h`;
the register-register ALU opcode is 0x33. -/
def OP_REG : Nat := 0x33

/-- Modelled from the spec: `OP_IMM` is declared in the absent `Simulator.h`;
the register-immediate ALU opcode is 0x13. -/
def OP_IMM : Nat := 0x13

/-- Modelled from the spec: `OP_LUI` is declared in the absent `Simulator.h`;
the LUI opcode is 0x37. -/
def OP_LUI : Nat := 0x37

/-- Modelled from the spec: `OP_AUIPC` is declared in the absent `Simulator.h`;
the value is the AUIPC major opcode of the base ISA, 0x17. -/
def OP_AUIPC : Nat := 0x17

/-- Modelled from the spec: `OP_JAL` is declared in the absent `Simulator.h`;
the value is the JAL major opcode of the base ISA, 0x6F. -/
def OP_JAL : Nat := 0x6F

/-- Modelled from the spec: `OP_JALR` is declared in the absent `Simulator.h`;
the value is the JALR major opcode of the base ISA, 0x67. -/
def OP_JALR : Nat := 0x67

/-- Modelled from the spec: `OP_BRANCH` is declared in the absent `Simulator.h`;
the value is the branch major opcode of the base ISA, 0x63. -/
def OP_BRANCH : Nat := 0x63

/-- Modelled from the spec: `OP_STORE` is declared in the absent `Simulator.h`;
the value is the store major opcode of the base ISA, 0x23. -/
def OP_STORE : Nat := 0x23

/-- Modelled from the spec: `OP_LOAD` is declared in the absent `Simulator.h`;
the value is the load major opcode of the base ISA, 0x03. -/
def OP_LOAD : Nat := 0x03

/-- Modelled from the spec: `OP_SYSTEM` is declared in the absent `Simulator.h`;
the system opcode is 0x73. -/
def OP_SYSTEM : Nat := 0x73

/-- Modelled from the spec: `OP_ADDIW` is declared in the absent `Simulator.h`;
the word-sized-immediate-add opcode is 0x1B. -/
def OP_ADDIW : Nat := 0x1B

/-! ## Machine integers -/

/-- The conversion `int32_t(x)` of an unsigned 32-bit pattern. -/
def int32_t (x : Nat) : Int :=
  if x % 2 ^ 32 < 2 ^ 31 then ((x % 2 ^ 32 : Nat) : Int)
  else ((x % 2 ^ 32 : Nat) : Int) - 2 ^ 32

/-- The conversion to `int64_t` of an unsigned 64-bit pattern. -/
def int64_t (x : Nat) : Int :=
  if x % 2 ^ 64 < 2 ^ 63 then ((x % 2 ^ 64 : Nat) : Int)
  else ((x % 2 ^ 64 : Nat) : Int) - 2 ^ 64

/-- The left shift `x << k` of an `int32_t`: the bit pattern is shifted and cut
to 32 bits. -/
def shl32 (x : Int) (k : Nat) : Int :=
  int32_t ((x * 2 ^ k) % 2 ^ 32).toNat

/-- The right shift `x >> k` of an `int32_t`: arithmetic, the sign is kept. -/
def sar32 (x : Int) (k : Nat) : Int :=
  x >>> k

/-- The left shift `x << k` of a `uint32_t`. -/
def shl_u32 (x : Nat) (k : Nat) : Nat :=
  (x <<< k) % 2 ^ 32

/-- The bitwise `x & m` of two `int64_t` values, on their two's-complement
patterns. -/
def and64 (x m : Int) : Int :=
  int64_t ((x % 2 ^ 64).toNat &&& (m % 2 ^ 64).toNat)

/-! ## Fields of a 32-bit instruction word (Simulator.cpp, lines 163-180) -/

/-- Source: `inst & 0x7F`. -/
def opcode (inst : Nat) : Nat := inst &&& 0x7F

/-- Source: `(inst >> 12) & 0x7`. -/
def funct3 (inst : Nat) : Nat := (inst >>> 12) &&& 0x7

/-- Source: `(inst >> 25) & 0x7F`. -/
def funct7 (inst : Nat) : Nat := (inst >>> 25) &&& 0x7F

/-- Source: `(inst >> 7) & 0x1F`. -/
def rd (inst : Nat) : Nat := (inst >>> 7) &&& 0x1F

/-- Source: `(inst >> 15) & 0x1F`. -/
def rs1 (inst : Nat) : Nat := (inst >>> 15) &&& 0x1F

/-- Source: `(inst >> 20) & 0x1F`. -/
def rs2 (inst : Nat) : Nat := (inst >>> 20) &&& 0x1F

/-- Source: `int32_t(inst) >> 20`. -/
def imm_i (inst : Nat) : Int :=
  sar32 (int32_t inst) 20

/-- Source: `int32_t(((inst >> 7) & 0x1F) | ((inst >> 20) & 0xFE0)) << 20 >> 20`. -/
def imm_s (inst : Nat) : Int :=
  sar32 (shl32 (int32_t (((inst >>> 7) &&& 0x1F) ||| ((inst >>> 20) &&& 0xFE0))) 20) 20

/-- Source: `int32_t(((inst >> 7) & 0x1E) | ((inst >> 20) & 0x7E0) |
((inst << 7) & 0x800) | ((inst >> 19) & 0x1000)) << 19 >> 19`. -/
def imm_sb (inst : Nat) : Int :=
  sar32 (shl32 (int32_t ((((inst >>> 7) &&& 0x1E) ||| ((inst >>> 20) &&& 0x7E0)) |||
    ((shl_u32 inst 7) &&& 0x800) ||| ((inst >>> 19) &&& 0x1000))) 19) 19

/-- Source: `int32_t(inst) >> 12`. -/
def imm_u (inst : Nat) : Int :=
  sar32 (int32_t inst) 12

/-- Source: `int32_t(((inst >> 21) & 0x3FF) | ((inst >> 10) & 0x400) |
(inst & 0xFF000) | ((inst >> 12) & 0x80000)) << 12 >> 11`. -/
def imm_uj (inst : Nat) : Int :=
  sar32 (shl32 (int32_t ((((inst >>> 21) &&& 0x3FF) ||| ((inst >>> 10) &&& 0x400)) |||
    (inst &&& 0xFF000) ||| ((inst >>> 12) &&& 0x80000))) 12) 11

/-! ## Processor state (`Simulator.h`) -/

/-- Modelled from the spec: the fetch record `fReg` is declared in the absent
`Simulator.h`; it holds the raw instruction word and its length in bytes (both
assigned from `uint32_t` locals in `Simulator::fetch`). -/
structure FReg where
  inst : Nat
  len : Nat

/-- Modelled from the spec: the decoded-instruction record `dReg` is declared in
the absent `Simulator.h`; it holds the variant, the destination register index,
the two operand values and the offset. The four `int64_t` fields are copies of
locals of `Simulator::decode` that may never have been assigned: `none` stands
for such an indeterminate value. -/
structure DReg where
  inst : Inst
  dest : Option Int
  op1 : Option Int
  op2 : Option Int
  offset : Option Int

/-- Modelled from the spec: the class `Simulator` is declared in the absent
`Simulator.h`. These are the members that the pipeline reads or writes: `pc`
(unsigned 64-bit), the register file `reg[REGNUM]` (64-bit values, 32 of them),
the two stage records, and the external memory, seen through `memory->getInt`. -/
structure Simulator where
  pc : Nat
  reg : Nat → Int
  fReg : FReg
  dReg : DReg
  memory : Nat → Nat

/-- The ways `Simulator::fetch` and `Simulator::decode` end the run, one per
diagnostic message. `instnameOutOfTable` is the read `INSTNAME[insttype]` with an
`insttype` that has no entry in the table. -/
inductive Fatal
  | illegalPC
  | unknownFunct7
  | unknownFunct3
  | unsupportedOpcode
  | unsupported16bit
  | unmatchInstname
  | instnameOutOfTable
  deriving DecidableEq

/-- The result of a pipeline stage: it returns with a new state, or the process
exits, leaving the state as it was at the call of `exit`. -/
inductive Outcome
  | running (s : Simulator)
  | exited (e : Fatal) (s : Simulator)

/-- The locals of `Simulator::decode` that survive the `switch`. -/
structure Locals where
  instname : String
  insttype : Inst
  op1 : Option Int
  op2 : Option Int
  offset : Option Int
  dest : Option Int

/-! ## `Simulator::decode` (Simulator.cpp, lines 151-534) -/

/-- The inner `switch (funct3)` of `case OP_REG` (lines 187-272): the mnemonic
and the variant, or the `exit(-1)` of an unassigned funct3 / funct7. -/
def decode_OP_REG_funct (funct3 funct7 : Nat) : Except Fatal (String × Inst) :=
  if funct3 = 0x0 then
    if funct7 = 0x00 then .ok ("add", .ADD)
    else if funct7 = 0x01 then .ok ("mul", .MUL)
    else if funct7 = 0x20 then .ok ("sub", .SUB)
    else .error .unknownFunct7
  else if funct3 = 0x1 then
    if funct7 = 0x00 then .ok ("sll", .SLL)
    else if funct7 = 0x01 then .ok ("mulh", .MULH)
    else .error .unknownFunct7
  else if funct3 = 0x2 then
    if funct7 = 0x00 then .ok ("slt", .SLT)
    else .error .unknownFunct7
  else if funct3 = 0x4 then
    if funct7 = 0x00 then .ok ("xor", .XOR)
    else if funct7 = 0x01 then .ok ("div", .DIV)
    else .error .unknownFunct7
  else if funct3 = 0x5 then
    if funct7 = 0x00 then .ok ("srl", .SRL)
    else if funct7 = 0x20 then .ok ("sra", .SRA)
    else .error .unknownFunct7
  else if funct3 = 0x6 then
    if funct7 = 0x00 then .ok ("or", .OR)
    else if funct7 = 0x01 then .ok ("rem", .REM)
    else .error .unknownFunct7
  else if funct3 = 0x7 then
    if funct7 = 0x00 then .ok ("and", .AND)
    else .error .unknownFunct7
  else .error .unknownFunct3

/-- Source: `case OP_REG` (lines 183-277). -/
def decode_OP_REG (reg : Nat → Int) (inst : Nat) : Except Fatal Locals :=
  match decode_OP_REG_funct (funct3 inst) (funct7 inst) with
  | .error e => .error e
  | .ok (instname, insttype) =>
    .ok { instname := instname, insttype := insttype,
          op1 := some (reg (rs1 inst)), op2 := some (reg (rs2 inst)),
          offset := none, dest := some (rd inst : Nat) }

/-- Source: `case OP_IMM` (lines 278-334). `op2` starts as `imm_i`; the shift
variants overwrite it with `op2 & 0x3F`. -/
def decode_OP_IMM (reg : Nat → Int) (inst : Nat) : Except Fatal Locals :=
  let op1 : Option Int := some (reg (rs1 inst))
  let op2 : Int := imm_i inst
  let dest : Option Int := some (rd inst : Nat)
  let funct3 := funct3 inst
  if funct3 = 0x0 then
    .ok { instname := "addi", insttype := .ADDI, op1 := op1, op2 := some op2,
          offset := none, dest := dest }
  else if funct3 = 0x2 then
    .ok { instname := "slti", insttype := .SLTI, op1 := op1, op2 := some op2,
          offset := none, dest := dest }
  else if funct3 = 0x3 then
    .ok { instname := "sltiu", insttype := .SLTIU, op1 := op1, op2 := some op2,
          offset := none, dest := dest }
  else if funct3 = 0x4 then
    .ok { instname := "xori", insttype := .XORI, op1 := op1, op2 := some op2,
          offset := none, dest := dest }
  else if funct3 = 0x6 then
    .ok { instname := "ori", insttype := .ORI, op1 := op1, op2 := some op2,
          offset := none, dest := dest }
  else if funct3 = 0x7 then
    .ok { instname := "andi", insttype := .ANDI, op1 := op1, op2 := some op2,
          offset := none, dest := dest }
  else if funct3 = 0x1 then
    .ok { instname := "slli", insttype := .SLLI, op1 := op1,
          op2 := some (and64 op2 0x3F), offset := none, dest := dest }
  else if funct3 = 0x5 then
    if (inst >>> 26) &&& 0x3F = 0x0 then
      .ok { instname := "srli", insttype := .SRLI, op1 := op1,
            op2 := some (and64 op2 0x3F), offset := none, dest := dest }
    else if (inst >>> 26) &&& 0x3F = 0x10 then
      .ok { instname := "srai", insttype := .SRAI, op1 := op1,
            op2 := some (and64 op2 0x3F), offset := none, dest := dest }
    else .error .unknownFunct7
  else .error .unknownFunct3

/-- Source: `case OP_LUI` (lines 335-344). -/
def decode_OP_LUI (inst : Nat) : Except Fatal Locals :=
  .ok { instname := "lui", insttype := .LUI, op1 := some (imm_u inst),
        op2 := some 0, offset := none, dest := some (rd inst : Nat) }

/-- Source: `case OP_AUIPC` (lines 345-354). -/
def decode_OP_AUIPC (inst : Nat) : Except Fatal Locals :=
  .ok { instname := "auipc", insttype := .AUIPC, op1 := some (imm_u inst),
        op2 := some 0, offset := none, dest := some (rd inst : Nat) }

/-- Source: `case OP_JAL` (lines 355-364). -/
def decode_OP_JAL (inst : Nat) : Except Fatal Locals :=
  .ok { instname := "jal", insttype := .JAL, op1 := some (imm_uj inst),
        op2 := some 0, offset := none, dest := some (rd inst : Nat) }

/-- Source: `case OP_JALR` (lines 365-375). -/
def decode_OP_JALR (reg : Nat → Int) (inst : Nat) : Except Fatal Locals :=
  .ok { instname := "jalr", insttype := .JALR, op1 := some (reg (rs1 inst)),
        op2 := some (imm_i inst), offset := none, dest := some (rd inst : Nat) }

/-- The inner `switch (funct3)` of `case OP_BRANCH` (lines 380-408). -/
def decode_OP_BRANCH_funct (funct3 : Nat) : Except Fatal (String × Inst) :=
  if funct3 = 0x0 then .ok ("beq", .BEQ)
  else if funct3 = 0x1 then .ok ("bne", .BNE)
  else if funct3 = 0x4 then .ok ("blt", .BLT)
  else if funct3 = 0x5 then .ok ("bge", .BGE)
  else if funct3 = 0x6 then .ok ("bltu", .BLTU)
  else if funct3 = 0x7 then .ok ("bgeu", .BGEU)
  else .error .unknownFunct3

/-- Source: `case OP_BRANCH` (lines 376-413); `dest` is not assigned. -/
def decode_OP_BRANCH (reg : Nat → Int) (inst : Nat) : Except Fatal Locals :=
  match decode_OP_BRANCH_funct (funct3 inst) with
  | .error e => .error e
  | .ok (instname, insttype) =>
    .ok { instname := instname, insttype := insttype,
          op1 := some (reg (rs1 inst)), op2 := some (reg (rs2 inst)),
          offset := some (imm_sb inst), dest := none }

/-- The inner `switch (funct3)` of `case OP_STORE` (lines 418-438). -/
def decode_OP_STORE_funct (funct3 : Nat) : Except Fatal (String × Inst) :=
  if funct3 = 0x0 then .ok ("sb", .SB)
  else if funct3 = 0x1 then .ok ("sh", .SH)
  else if funct3 = 0x2 then .ok ("sw", .SW)
  else if funct3 = 0x3 then .ok ("sd", .SD)
  else .error .unknownFunct3

/-- Source: `case OP_STORE` (lines 414-443); `dest` is not assigned. -/
def decode_OP_STORE (reg : Nat → Int) (inst : Nat) : Except Fatal Locals :=
  match decode_OP_STORE_funct (funct3 inst) with
  | .error e => .error e
  | .ok (instname, insttype) =>
    .ok { instname := instname, insttype := insttype,
          op1 := some (reg (rs1 inst)), op2 := some (reg (rs2 inst)),
          offset := some (imm_s inst), dest := none }

/-- The inner `switch (funct3)` of `case OP_LOAD` (lines 448-476). -/
def decode_OP_LOAD_funct (funct3 : Nat) : Except Fatal (String × Inst) :=
  if funct3 = 0x0 then .ok ("lb", .LB)
  else if funct3 = 0x1 then .ok ("lh", .LH)
  else if funct3 = 0x2 then .ok ("lw", .LW)
  else if funct3 = 0x3 then .ok ("ld", .LD)
  else if funct3 = 0x4 then .ok ("lbu", .LBU)
  else if funct3 = 0x5 then .ok ("lhu", .LHU)
  else .error .unknownFunct3

/-- Source: `case OP_LOAD` (lines 444-481). -/
def decode_OP_LOAD (reg : Nat → Int) (inst : Nat) : Except Fatal Locals :=
  match decode_OP_LOAD_funct (funct3 inst) with
  | .error e => .error e
  | .ok (instname, insttype) =>
    .ok { instname := instname, insttype := insttype,
          op1 := some (reg (rs1 inst)), op2 := some (imm_i inst),
          offset := none, dest := some (rd inst : Nat) }

/-- Source: `case OP_SYSTEM` (lines 482-492). The `else` branch only prints a
message: `instname` stays `""` and `insttype` stays `UNKNOWN`. Neither `op2`,
`offset` nor `dest` is assigned. -/
def decode_OP_SYSTEM (reg : Nat → Int) (inst : Nat) : Except Fatal Locals :=
  if funct3 inst = 0x0 ∧ funct7 inst = 0x000 then
    .ok { instname := "ecall", insttype := .ECALL, op1 := some (reg 10),
          op2 := none, offset := none, dest := none }
  else
    .ok { instname := "", insttype := .UNKNOWN, op1 := some (reg 10),
          op2 := none, offset := none, dest := none }

/-- Source: the `default` label of the opcode switch (lines 510-512). -/
def decode_default : Except Fatal Locals :=
  .error .unsupportedOpcode

/-- Source: `case OP_ADDIW` (lines 493-509). The case has no `break`: after the
inner switch, control runs on into the `default` label. -/
def decode_OP_ADDIW (reg : Nat → Int) (inst : Nat) : Except Fatal Locals :=
  let assigned : Except Fatal Locals :=
    if funct3 inst = 0x0 then
      .ok { instname := "addiw", insttype := .ADDIW, op1 := some (reg (rs1 inst)),
            op2 := some (imm_i inst), offset := none, dest := some (rd inst : Nat) }
    else .error .unknownFunct3
  match assigned with
  | .error e => .error e
  | .ok _ => decode_default

/-- Source: `switch (opcode)` (lines 182-513). -/
def decode_switch (reg : Nat → Int) (inst : Nat) : Except Fatal Locals :=
  let opcode := opcode inst
  if opcode = OP_REG then decode_OP_REG reg inst
  else if opcode = OP_IMM then decode_OP_IMM reg inst
  else if opcode = OP_LUI then decode_OP_LUI inst
  else if opcode = OP_AUIPC then decode_OP_AUIPC inst
  else if opcode = OP_JAL then decode_OP_JAL inst
  else if opcode = OP_JALR then decode_OP_JALR reg inst
  else if opcode = OP_BRANCH then decode_OP_BRANCH reg inst
  else if opcode = OP_STORE then decode_OP_STORE reg inst
  else if opcode = OP_LOAD then decode_OP_LOAD reg inst
  else if opcode = OP_SYSTEM then decode_OP_SYSTEM reg inst
  else if opcode = OP_ADDIW then decode_OP_ADDIW reg inst
  else decode_default

/-- The end of `Simulator::decode` (lines 524-533): the comparison of `instname`
with `INSTNAME[insttype]`, then the assignment of `dReg`. -/
def decode_commit (s : Simulator) (l : Locals) : Outcome :=
  match instnameOf l.insttype with
  | none => .exited .instnameOutOfTable s
  | some name =>
    if l.instname ≠ name then .exited .unmatchInstname s
    else .running { s with dReg := { inst := l.insttype, dest := l.dest, op1 := l.op1,
                                     op2 := l.op2, offset := l.offset } }

/-- Source: `Simulator::decode`. -/
def decode (s : Simulator) : Outcome :=
  if s.fReg.len = 4 then
    match decode_switch s.reg s.fReg.inst with
    | .error e => .exited e s
    | .ok l => decode_commit s l
  else .exited .unsupported16bit s

/-! ## The other stages (Simulator.cpp, lines 105-149 and 536-548) -/

/-- Source: `Simulator::fetch`. -/
def fetch (s : Simulator) : Outcome :=
  if s.pc % 2 ≠ 0 then .exited .illegalPC s
  else
    let inst := s.memory s.pc % 2 ^ 32
    if inst &&& 0x3 = 0x3 then
      .running { s with fReg := { inst := inst, len := 4 }, pc := (s.pc + 4) % 2 ^ 64 }
    else
      .running { s with fReg := { inst := inst &&& 0xFFFF, len := 2 },
                        pc := (s.pc + 2) % 2 ^ 64 }

/-- Source: `Simulator::excecute`: reads `dReg` into locals, changes nothing. -/
def excecute (s : Simulator) : Simulator := s

/-- Source: `Simulator::memoryAccess`: empty body. -/
def memoryAccess (s : Simulator) : Simulator := s

/-- Source: `Simulator::writeBack`: empty body. -/
def writeBack (s : Simulator) : Simulator := s

/-- One iteration of the loop of `Simulator::simulate`. -/
def cycle (s : Simulator) : Outcome :=
  match fetch s with
  | .exited e s1 => .exited e s1
  | .running s1 =>
    match decode s1 with
    | .exited e s2 => .exited e s2
    | .running s2 => .running (writeBack (memoryAccess (excecute s2)))

/-! ## States for the worked examples -/

/-- Source: `Simulator::Simulator` (lines 95-101): `pc = 0` and every register
0. The constructor leaves `fReg` and `dReg` unset; their contents are
parameters here. -/
def Simulator.construct (memory : Nat → Nat) (fReg : FReg) (dReg : DReg) : Simulator :=
  { pc := 0, reg := fun _ => 0, fReg := fReg, dReg := dReg, memory := memory }

/-- A memory that returns the word `w` at every address. -/
def constMemory (w : Nat) : Nat → Nat := fun _ => w

/-- The state that `Simulator::decode` sees in the first cycle when the memory
holds the 4-byte instruction word `w` at address 0: the constructor's state
after `fetch` has stored the word with length 4 and moved `pc` to 4. -/
def fetched (w : Nat) : Simulator :=
  { Simulator.construct (constMemory w) { inst := 0, len := 0 }
      { inst := .UNKNOWN, dest := none, op1 := none, op2 := none, offset := none } with
    fReg := { inst := w, len := 4 }, pc := 4 }


/-! ## The loop of `Simulator::simulate` -/

/-- The processor state carried by a stage result. -/
def Outcome.state : Outcome → Simulator
  | .running s => s
  | .exited _ s => s

/-- Source: `Simulator::simulate` (lines 105-119), cut after `n` iterations of
its `while (true)` loop: `running` when all `n` cycles completed, `exited` as
soon as one of them called `exit`. -/
def run : Nat → Simulator → Outcome
  | 0, s => .running s
  | n + 1, s =>
    match run n s with
    | .exited e s1 => .exited e s1
    | .running s1 => cycle s1

/-! ## Arithmetic of the machine-integer helpers -/

theorem and_shifted_mask (y k j : Nat) :
    y &&& ((2 ^ k - 1) * 2 ^ j) = ((y / 2 ^ j) % 2 ^ k) * 2 ^ j := by
  apply Nat.eq_of_testBit_eq
  intro i
  rw [Nat.testBit_and, Nat.mul_comm _ (2 ^ j), Nat.mul_comm _ (2 ^ j),
    Nat.testBit_mul_pow_two, Nat.testBit_mul_pow_two, Nat.testBit_two_pow_sub_one,
    Nat.testBit_mod_two_pow, ← Nat.shiftRight_eq_div_pow, Nat.testBit_shiftRight]
  by_cases h : j ≤ i
  · have e : j + (i - j) = i := by omega
    simp [h, e, Bool.and_comm]
  · simp [h]

theorem sar32_eq_div (x : Int) (k : Nat) : sar32 x k = x / ((2 ^ k : Nat) : Int) := by
  unfold sar32
  exact Int.shiftRight_eq_div_pow x k

theorem imm_i_eq (inst : Nat) (h : inst < 2 ^ 32) :
    imm_i inst =
      if inst < 2 ^ 31 then ((inst / 2 ^ 20 : Nat) : Int)
      else ((inst / 2 ^ 20 : Nat) : Int) - 4096 := by
  unfold imm_i int32_t
  rw [sar32_eq_div]
  split <;> split <;> push_cast <;> omega

theorem imm_u_eq (inst : Nat) (h : inst < 2 ^ 32) :
    imm_u inst =
      if inst < 2 ^ 31 then ((inst / 2 ^ 12 : Nat) : Int)
      else ((inst / 2 ^ 12 : Nat) : Int) - 1048576 := by
  unfold imm_u int32_t
  rw [sar32_eq_div]
  split <;> split <;> push_cast <;> omega

theorem imm_s_eq (inst : Nat) (h : inst < 2 ^ 32) :
    imm_s inst =
      if inst < 2 ^ 31 then ((inst / 2 ^ 25 * 32 + inst / 2 ^ 7 % 32 : Nat) : Int)
      else ((inst / 2 ^ 25 * 32 + inst / 2 ^ 7 % 32 : Nat) : Int) - 4096 := by
  have hA : (inst >>> 7) &&& 0x1F = inst / 2 ^ 7 % 32 := by
    rw [Nat.shiftRight_eq_div_pow]
    exact Nat.and_pow_two_sub_one_eq_mod _ 5
  have hB : (inst >>> 20) &&& 0xFE0 = 2 ^ 5 * (inst / 2 ^ 25) := by
    rw [Nat.shiftRight_eq_div_pow]
    have := and_shifted_mask (inst / 2 ^ 20) 7 5
    norm_num at this ⊢
    omega
  have hlt : inst / 2 ^ 7 % 32 < 2 ^ 5 := by omega
  have hor : ((inst >>> 7) &&& 0x1F) ||| ((inst >>> 20) &&& 0xFE0)
      = 2 ^ 5 * (inst / 2 ^ 25) + inst / 2 ^ 7 % 32 := by
    rw [hA, hB, Nat.lor_comm]
    exact (Nat.mul_add_lt_is_or hlt _).symm
  unfold imm_s
  rw [hor, sar32_eq_div]
  unfold shl32 int32_t
  split <;> split <;> split <;> push_cast <;> omega


/-! ## The opcode switch, case by case -/

theorem decode_of_switch_ok {s : Simulator} {l : Locals} (hlen : s.fReg.len = 4)
    (h : decode_switch s.reg s.fReg.inst = .ok l) : decode s = decode_commit s l := by
  simp [decode, hlen, h]

theorem decode_of_switch_error {s : Simulator} {e : Fatal} (hlen : s.fReg.len = 4)
    (h : decode_switch s.reg s.fReg.inst = .error e) : decode s = .exited e s := by
  simp [decode, hlen, h]

theorem decode_commit_of_instname {s : Simulator} {l : Locals}
    (h : instnameOf l.insttype = some l.instname) :
    decode_commit s l = .running { s with dReg :=
      { inst := l.insttype, dest := l.dest, op1 := l.op1, op2 := l.op2,
        offset := l.offset } } := by
  simp [decode_commit, h]

theorem decode_word_error (s : Simulator) (w : Nat) (e : Fatal)
    (h : decode_switch s.reg w = .error e) :
    decode { s with fReg := { inst := w, len := 4 } }
      = .exited e { s with fReg := { inst := w, len := 4 } } :=
  decode_of_switch_error rfl h

theorem decode_word_ok (s : Simulator) (w : Nat) (l : Locals)
    (h : decode_switch s.reg w = .ok l) (hn : instnameOf l.insttype = some l.instname) :
    decode { s with fReg := { inst := w, len := 4 } }
      = .running { s with
          fReg := { inst := w, len := 4 },
          dReg := { inst := l.insttype, dest := l.dest, op1 := l.op1, op2 := l.op2,
                    offset := l.offset } } :=
  (decode_of_switch_ok rfl h).trans (decode_commit_of_instname hn)

theorem decode_switch_OP_IMM (reg : Nat → Int) (inst : Nat) (h : opcode inst = OP_IMM) :
    decode_switch reg inst = decode_OP_IMM reg inst := by
  simp [decode_switch, h, OP_REG, OP_IMM]

theorem decode_switch_OP_LUI (reg : Nat → Int) (inst : Nat) (h : opcode inst = OP_LUI) :
    decode_switch reg inst = decode_OP_LUI inst := by
  simp [decode_switch, h, OP_REG, OP_IMM, OP_LUI]

theorem decode_switch_OP_JALR (reg : Nat → Int) (inst : Nat) (h : opcode inst = OP_JALR) :
    decode_switch reg inst = decode_OP_JALR reg inst := by
  simp [decode_switch, h, OP_REG, OP_IMM, OP_LUI, OP_AUIPC, OP_JAL, OP_JALR]

theorem decode_switch_OP_STORE (reg : Nat → Int) (inst : Nat) (h : opcode inst = OP_STORE) :
    decode_switch reg inst = decode_OP_STORE reg inst := by
  simp [decode_switch, h, OP_REG, OP_IMM, OP_LUI, OP_AUIPC, OP_JAL, OP_JALR, OP_BRANCH,
    OP_STORE]

theorem decode_switch_OP_ADDIW (reg : Nat → Int) (inst : Nat) (h : opcode inst = OP_ADDIW) :
    decode_switch reg inst = decode_OP_ADDIW reg inst := by
  simp [decode_switch, h, OP_REG, OP_IMM, OP_LUI, OP_AUIPC, OP_JAL, OP_JALR, OP_BRANCH,
    OP_STORE, OP_LOAD, OP_SYSTEM, OP_ADDIW]

theorem and64_imm_i (inst : Nat) (h : inst < 2 ^ 32) :
    and64 (imm_i inst) 0x3F = (((inst >>> 20) &&& 0x3F : Nat) : Int) := by
  have hm : ((0x3F : Int) % 2 ^ 64).toNat = 2 ^ 6 - 1 := by rfl
  have hr : (inst >>> 20) &&& 0x3F = inst / 2 ^ 20 % 2 ^ 6 := by
    rw [Nat.shiftRight_eq_div_pow]
    exact Nat.and_pow_two_sub_one_eq_mod _ 6
  unfold and64
  rw [hm, hr, Nat.and_pow_two_sub_one_eq_mod, imm_i_eq inst h]
  unfold int64_t
  split <;> split <;> omega


/-! ## Register-register family -/

/-- The thirteen (funct3, funct7) pairs that the `OP_REG` case handles decode to
their variant with `op1 = reg[rs1]`, `op2 = reg[rs2]`, `dest = rd`; `offset` is
never assigned on this path. -/
theorem decode_OP_REG_handled_pairs (s : Simulator) (v : Inst)
    (hlen : s.fReg.len = 4) (hop : opcode s.fReg.inst = OP_REG)
    (hv : (funct3 s.fReg.inst, funct7 s.fReg.inst, v) ∈
      [(0, 0x00, Inst.ADD), (0, 0x20, Inst.SUB), (0, 0x01, Inst.MUL), (1, 0x00, Inst.SLL),
       (1, 0x01, Inst.MULH), (2, 0x00, Inst.SLT), (4, 0x00, Inst.XOR), (4, 0x01, Inst.DIV),
       (5, 0x00, Inst.SRL), (5, 0x20, Inst.SRA), (6, 0x00, Inst.OR), (6, 0x01, Inst.REM),
       (7, 0x00, Inst.AND)]) :
    decode s = .running { s with dReg :=
      { inst := v, dest := some (rd s.fReg.inst : Nat), op1 := some (s.reg (rs1 s.fReg.inst)),
        op2 := some (s.reg (rs2 s.fReg.inst)), offset := none } } := by
  simp only [List.mem_cons, Prod.mk.injEq, List.mem_singleton, List.not_mem_nil,
    or_false] at hv
  rcases hv with h | h | h | h | h | h | h | h | h | h | h | h | h <;>
    obtain ⟨h3, h7, rfl⟩ := h <;>
    simp [decode, hlen, decode_switch, hop, decode_OP_REG, decode_OP_REG_funct, h3, h7,
      decode_commit, instnameOf, Inst.ordinal, INSTNAME]

/-- C1 (defect in the code): the word 0x00003033 (SLTU x0, x0, x0) has opcode
`OP_REG`, funct3 = 3 and funct7 = 0, one of the fourteen pairs of the claim, and
`decode` does not produce SLTU for it: the `OP_REG` switch has no `case 0x3`, so
the run ends in the unknown-funct3 exit, with the state untouched. -/
theorem decode_sltu_exits (s : Simulator) :
    opcode 0x00003033 = OP_REG ∧ funct3 0x00003033 = 3 ∧ funct7 0x00003033 = 0x00 ∧
    decode { s with fReg := { inst := 0x00003033, len := 4 } }
      = .exited .unknownFunct3 { s with fReg := { inst := 0x00003033, len := 4 } } :=
  ⟨rfl, rfl, rfl, decode_word_error s _ _ rfl⟩

/-! ## `OP_ADDIW` -/

/-- No word with opcode `OP_ADDIW` is ever decoded: the run ends with the
unsupported-opcode exit when funct3 = 0 and with the unknown-funct3 exit
otherwise. -/
theorem decode_OP_ADDIW_exits (s : Simulator) (hlen : s.fReg.len = 4)
    (hop : opcode s.fReg.inst = OP_ADDIW) :
    decode s = .exited (if funct3 s.fReg.inst = 0 then .unsupportedOpcode
                        else .unknownFunct3) s := by
  apply decode_of_switch_error hlen
  rw [decode_switch_OP_ADDIW _ _ hop]
  unfold decode_OP_ADDIW decode_default
  split <;> rfl

/-- C2 (defect in the code): the word 0x0000001B (ADDIW x0, x0, 0) has opcode
`OP_ADDIW` and funct3 = 0, and `decode` does not produce ADDIW for it: the case
has no `break`, control reaches the `default` label and the run ends with the
unsupported-opcode exit. -/
theorem decode_addiw_exits (s : Simulator) :
    opcode 0x0000001B = OP_ADDIW ∧ funct3 0x0000001B = 0 ∧
    decode { s with fReg := { inst := 0x0000001B, len := 4 } }
      = .exited .unsupportedOpcode { s with fReg := { inst := 0x0000001B, len := 4 } } :=
  ⟨rfl, rfl, decode_word_error s _ _ rfl⟩

/-! ## Immediates -/

/-- C3 (defect in the code): the word 0x000000E3 (opcode `OP_BRANCH`, funct3 = 0)
holds the B-type encoding of V = 2048 (bits [11:8] = imm[4:1] = 0,
bits [30:25] = imm[10:5] = 0, bit 7 = imm[11] = 1, bit 31 = imm[12] = 0), and
`decode` computes the offset 0, not 2048: `(inst << 7) & 0x800` reads bit 4 of
the word where imm[11] is stored in bit 7. -/
theorem imm_sb_drops_bit_7 (s : Simulator) :
    ((0x000000E3 >>> 8) % 16 : Nat) = ((2048 : Int) / 2) % 16 ∧
    ((0x000000E3 >>> 25) % 64 : Nat) = ((2048 : Int) / 32) % 64 ∧
    ((0x000000E3 >>> 7) % 2 : Nat) = ((2048 : Int) / 2048) % 2 ∧
    ((0x000000E3 >>> 31) % 2 : Nat) = ((2048 : Int) / 4096) % 2 ∧
    imm_sb 0x000000E3 = 0 ∧
    decode { s with fReg := { inst := 0x000000E3, len := 4 } }
      = .running { s with
          fReg := { inst := 0x000000E3, len := 4 },
          dReg := { inst := .BEQ, dest := none, op1 := some (s.reg 0),
                    op2 := some (s.reg 0), offset := some 0 } } :=
  ⟨rfl, rfl, rfl, rfl, rfl,
    decode_word_ok s 0x000000E3
      { instname := "beq", insttype := .BEQ, op1 := some (s.reg 0), op2 := some (s.reg 0),
        offset := some 0, dest := none } rfl rfl⟩

/-- C4 (defect in the code): the word 0x0000106F (opcode `OP_JAL`, rd = 0) holds
the J-type encoding of V = 4096 (bits [30:21] = imm[10:1] = 0, bit 20 = imm[11]
= 0, bits [19:12] = imm[19:12] = 1, bit 31 = imm[20] = 0), and `decode` computes
op1 = 8192, not 4096: `inst & 0xFF000` leaves imm[19:12] one position too high
before the final `<< 12 >> 11`. -/
theorem imm_uj_misplaces_bits_19_12 (s : Simulator) :
    ((0x0000106F >>> 21) % 1024 : Nat) = ((4096 : Int) / 2) % 1024 ∧
    ((0x0000106F >>> 20) % 2 : Nat) = ((4096 : Int) / 2048) % 2 ∧
    ((0x0000106F >>> 12) % 256 : Nat) = ((4096 : Int) / 4096) % 256 ∧
    ((0x0000106F >>> 31) % 2 : Nat) = ((4096 : Int) / 1048576) % 2 ∧
    imm_uj 0x0000106F = 8192 ∧
    decode { s with fReg := { inst := 0x0000106F, len := 4 } }
      = .running { s with
          fReg := { inst := 0x0000106F, len := 4 },
          dReg := { inst := .JAL, dest := some 0, op1 := some 8192,
                    op2 := some 0, offset := none } } :=
  ⟨rfl, rfl, rfl, rfl, rfl,
    decode_word_ok s 0x0000106F
      { instname := "jal", insttype := .JAL, op1 := some 8192, op2 := some 0,
        offset := none, dest := some 0 } rfl rfl⟩


/-- C5: I-type immediate round trip. For every integer V with
-2048 <= V <= 2047 and every 32-bit word whose bits [31:20] hold the 12-bit
two's-complement encoding of V, `imm_i` of the word is V; and when the word has
the JALR opcode, `decode` commits V as `op2` (with `op1 = reg[rs1]`,
`dest = rd`). -/
theorem imm_i_roundtrip (V : Int) (inst : Nat) (hlo : -2048 ≤ V) (hhi : V ≤ 2047)
    (hinst : inst < 2 ^ 32) (hbits : ((inst >>> 20 : Nat) : Int) = V % 4096) :
    imm_i inst = V ∧
    ∀ s : Simulator, s.fReg = { inst := inst, len := 4 } → opcode inst = OP_JALR →
      decode s = .running { s with dReg :=
        { inst := .JALR, dest := some (rd inst : Nat), op1 := some (s.reg (rs1 inst)),
          op2 := some V, offset := none } } := by
  have hV : imm_i inst = V := by
    rw [imm_i_eq inst hinst]
    rw [Nat.shiftRight_eq_div_pow] at hbits
    split <;> omega
  refine ⟨hV, ?_⟩
  intro s hs hop
  have hlen : s.fReg.len = 4 := by rw [hs]
  have hw : s.fReg.inst = inst := by rw [hs]
  have hsw : decode_switch s.reg s.fReg.inst = .ok
      { instname := "jalr", insttype := .JALR, op1 := some (s.reg (rs1 inst)),
        op2 := some (imm_i inst), offset := none, dest := some (rd inst : Nat) } := by
    rw [hw, decode_switch_OP_JALR _ _ hop]
    rfl
  rw [decode_of_switch_ok hlen hsw, decode_commit_of_instname (by rfl), hV]

/-- Witness of C5 at V = -1 and the word 0xFFF00067 (JALR x0, -1(x0)). -/
theorem imm_i_roundtrip_witness :
    (-2048 : Int) ≤ -1 ∧ (-1 : Int) ≤ 2047 ∧ 0xFFF00067 < 2 ^ 32 ∧
    ((0xFFF00067 >>> 20 : Nat) : Int) = (-1) % 4096 ∧ imm_i 0xFFF00067 = -1 :=
  ⟨by decide, by decide, by decide, by decide,
    (imm_i_roundtrip (-1) 0xFFF00067 (by decide) (by decide) (by decide) (by decide)).1⟩

/-- C6: S-type immediate round trip. For every integer V with
-2048 <= V <= 2047 and every 32-bit word whose bits [11:7] hold bits [4:0] of V
and whose bits [31:25] hold bits [11:5] of V (12-bit two's complement), `imm_s`
of the word is V; and when the word has the store opcode and an assigned
funct3 (0..3), `decode` succeeds and commits V as the offset. -/
theorem imm_s_roundtrip (V : Int) (inst : Nat) (hlo : -2048 ≤ V) (hhi : V ≤ 2047)
    (hinst : inst < 2 ^ 32)
    (hlow : (((inst >>> 7) % 32 : Nat) : Int) = V % 32)
    (hhigh : ((inst >>> 25 : Nat) : Int) = (V / 32) % 128) :
    imm_s inst = V ∧
    ∀ s : Simulator, s.fReg = { inst := inst, len := 4 } → opcode inst = OP_STORE →
      funct3 inst ≤ 3 →
      ∃ v, decode s = .running { s with dReg :=
        { inst := v, dest := none, op1 := some (s.reg (rs1 inst)),
          op2 := some (s.reg (rs2 inst)), offset := some V } } := by
  have hV : imm_s inst = V := by
    rw [imm_s_eq inst hinst]
    rw [Nat.shiftRight_eq_div_pow] at hlow hhigh
    split <;> omega
  refine ⟨hV, ?_⟩
  intro s hs hop hf
  have hlen : s.fReg.len = 4 := by rw [hs]
  have hw : s.fReg.inst = inst := by rw [hs]
  have hcases : funct3 inst = 0 ∨ funct3 inst = 1 ∨ funct3 inst = 2 ∨ funct3 inst = 3 := by
    omega
  rcases hcases with h | h | h | h
  · refine ⟨.SB, ?_⟩
    simp [decode, hlen, hw, decode_switch_OP_STORE _ _ hop, decode_OP_STORE,
      decode_OP_STORE_funct, h, decode_commit, instnameOf, Inst.ordinal, INSTNAME, hV]
  · refine ⟨.SH, ?_⟩
    simp [decode, hlen, hw, decode_switch_OP_STORE _ _ hop, decode_OP_STORE,
      decode_OP_STORE_funct, h, decode_commit, instnameOf, Inst.ordinal, INSTNAME, hV]
  · refine ⟨.SW, ?_⟩
    simp [decode, hlen, hw, decode_switch_OP_STORE _ _ hop, decode_OP_STORE,
      decode_OP_STORE_funct, h, decode_commit, instnameOf, Inst.ordinal, INSTNAME, hV]
  · refine ⟨.SD, ?_⟩
    simp [decode, hlen, hw, decode_switch_OP_STORE _ _ hop, decode_OP_STORE,
      decode_OP_STORE_funct, h, decode_commit, instnameOf, Inst.ordinal, INSTNAME, hV]

/-- Witness of C6 at V = -3 and the word 0xFE000EA3 (SB x0, -3(x0)). -/
theorem imm_s_roundtrip_witness :
    (-2048 : Int) ≤ -3 ∧ (-3 : Int) ≤ 2047 ∧ 0xFE000EA3 < 2 ^ 32 ∧
    (((0xFE000EA3 >>> 7) % 32 : Nat) : Int) = (-3) % 32 ∧
    ((0xFE000EA3 >>> 25 : Nat) : Int) = ((-3) / 32) % 128 ∧
    imm_s 0xFE000EA3 = -3 :=
  ⟨by decide, by decide, by decide, by decide, by decide,
    (imm_s_roundtrip (-3) 0xFE000EA3 (by decide) (by decide) (by decide) (by decide)
      (by decide)).1⟩

/-- C7: U-type immediate round trip. For every integer V with
-2^19 <= V <= 2^19 - 1 and every 32-bit word whose bits [31:12] hold the 20-bit
two's-complement encoding of V, `imm_u` of the word (the arithmetic right shift
of the whole word by 12) is V; and when the word has the LUI opcode, `decode`
commits V as `op1`. -/
theorem imm_u_roundtrip (V : Int) (inst : Nat) (hlo : -524288 ≤ V) (hhi : V ≤ 524287)
    (hinst : inst < 2 ^ 32) (hbits : ((inst >>> 12 : Nat) : Int) = V % 1048576) :
    imm_u inst = V ∧
    ∀ s : Simulator, s.fReg = { inst := inst, len := 4 } → opcode inst = OP_LUI →
      decode s = .running { s with dReg :=
        { inst := .LUI, dest := some (rd inst : Nat), op1 := some V,
          op2 := some 0, offset := none } } := by
  have hV : imm_u inst = V := by
    rw [imm_u_eq inst hinst]
    rw [Nat.shiftRight_eq_div_pow] at hbits
    split <;> omega
  refine ⟨hV, ?_⟩
  intro s hs hop
  have hlen : s.fReg.len = 4 := by rw [hs]
  have hw : s.fReg.inst = inst := by rw [hs]
  have hsw : decode_switch s.reg s.fReg.inst = .ok
      { instname := "lui", insttype := .LUI, op1 := some (imm_u inst),
        op2 := some 0, offset := none, dest := some (rd inst : Nat) } := by
    rw [hw, decode_switch_OP_LUI _ _ hop]
    rfl
  rw [decode_of_switch_ok hlen hsw, decode_commit_of_instname (by rfl), hV]

/-- Witness of C7 at V = -524288 and the word 0x800000B7 (LUI x1, 0x80000). -/
theorem imm_u_roundtrip_witness :
    (-524288 : Int) ≤ -524288 ∧ (-524288 : Int) ≤ 524287 ∧ 0x800000B7 < 2 ^ 32 ∧
    ((0x800000B7 >>> 12 : Nat) : Int) = (-524288) % 1048576 ∧
    imm_u 0x800000B7 = -524288 :=
  ⟨by decide, by decide, by decide, by decide,
    (imm_u_roundtrip (-524288) 0x800000B7 (by decide) (by decide) (by decide)
      (by decide)).1⟩


/-! ## LUI -/

theorem and_upper_mask (inst : Nat) (h : inst < 2 ^ 32) :
    inst &&& 0xFFFFF000 = inst / 2 ^ 12 * 2 ^ 12 := by
  have hm := and_shifted_mask inst 20 12
  have hlt : inst / 2 ^ 12 < 2 ^ 20 := by omega
  rw [Nat.mod_eq_of_lt hlt] at hm
  exact hm

/-- C8 (counterexample): the claim as stated fails. The word 0x00001037
(LUI x0, 1) has the LUI opcode; the claim asks for op1 = 0x1000 = 4096 (the word
with its low 12 bits cleared), and `decode` commits op1 = 1. -/
theorem decode_lui_op1_is_not_shifted :
    ¬ (∀ s : Simulator, s.fReg.len = 4 → s.fReg.inst < 2 ^ 32 →
        opcode s.fReg.inst = OP_LUI →
        ∃ s', decode s = .running s' ∧ s'.dReg.inst = .LUI ∧
          s'.dReg.dest = some (rd s.fReg.inst : Nat) ∧
          s'.dReg.op1 = some (int32_t (s.fReg.inst &&& 0xFFFFF000))) := by
  intro h
  obtain ⟨s', hd, _, _, hop1⟩ := h (fetched 0x00001037) rfl (by decide) rfl
  have hsw : decode_switch (fetched 0x00001037).reg (fetched 0x00001037).fReg.inst = .ok
      { instname := "lui", insttype := .LUI, op1 := some 1, op2 := some 0,
        offset := none, dest := some 0 } := rfl
  rw [decode_of_switch_ok rfl hsw, decode_commit_of_instname (by rfl)] at hd
  cases hd
  exact absurd hop1 (by decide)

/-- C8 (amended): for every state whose fetch record holds a 32-bit word of
length 4 with the LUI opcode, `decode` commits variant LUI with `dest = rd`,
`op2 = 0` and `op1 = imm_u`, the U-immediate field itself: bits [31:12] of the
word read as a signed 20-bit number (between -2^19 and 2^19 - 1), not shifted
into the upper bits. The word with its low 12 bits cleared, read as a signed
32-bit value, is `op1 * 4096`. -/
theorem decode_lui_op1_is_field (s : Simulator) (hlen : s.fReg.len = 4)
    (hinst : s.fReg.inst < 2 ^ 32) (hop : opcode s.fReg.inst = OP_LUI) :
    decode s = .running { s with dReg :=
      { inst := .LUI, dest := some (rd s.fReg.inst : Nat), op1 := some (imm_u s.fReg.inst),
        op2 := some 0, offset := none } } ∧
    -524288 ≤ imm_u s.fReg.inst ∧ imm_u s.fReg.inst ≤ 524287 ∧
    imm_u s.fReg.inst % 1048576 = ((s.fReg.inst >>> 12 : Nat) : Int) ∧
    imm_u s.fReg.inst * 4096 = int32_t (s.fReg.inst &&& 0xFFFFF000) := by
  have hsw : decode_switch s.reg s.fReg.inst = .ok
      { instname := "lui", insttype := .LUI, op1 := some (imm_u s.fReg.inst),
        op2 := some 0, offset := none, dest := some (rd s.fReg.inst : Nat) } := by
    rw [decode_switch_OP_LUI _ _ hop]
    rfl
  refine ⟨?_, ?_, ?_, ?_, ?_⟩
  · rw [decode_of_switch_ok hlen hsw, decode_commit_of_instname (by rfl)]
  · rw [imm_u_eq _ hinst]
    split <;> omega
  · rw [imm_u_eq _ hinst]
    split <;> omega
  · rw [imm_u_eq _ hinst, Nat.shiftRight_eq_div_pow]
    split <;> omega
  · rw [imm_u_eq _ hinst, and_upper_mask _ hinst]
    unfold int32_t
    split <;> split <;> push_cast <;> omega

/-- Witness of C8 (amended) at the word 0x00001037 (LUI x0, 1): op1 is 1. -/
theorem decode_lui_op1_is_field_witness :
    (fetched 0x00001037).fReg.len = 4 ∧ (fetched 0x00001037).fReg.inst < 2 ^ 32 ∧
    opcode (fetched 0x00001037).fReg.inst = OP_LUI ∧
    decode (fetched 0x00001037) = .running { fetched 0x00001037 with dReg :=
      { inst := .LUI, dest := some 0, op1 := some 1, op2 := some 0, offset := none } } :=
  ⟨rfl, by decide, rfl,
    (decode_lui_op1_is_field (fetched 0x00001037) rfl (by decide) rfl).1⟩

/-! ## Register-immediate family -/

/-- C9: for every state whose fetch record holds a 32-bit word of length 4 with
opcode `OP_IMM`: funct3 0, 2, 3, 4, 6, 7 decode to ADDI, SLTI, SLTIU, XORI, ORI,
ANDI with op2 = `imm_i`; funct3 1 with bits [31:26] = 0 decodes to SLLI, funct3
5 with bits [31:26] = 0 to SRLI and with bits [31:26] = 0x10 to SRAI, and for
these three op2 is bits [25:20] of the word, a value between 0 and 63; funct3 5
with any other bits [31:26] ends the run (unknown funct7) with nothing
committed; in every successful case op1 = reg[rs1] and dest = rd. -/
theorem decode_OP_IMM_variants (s : Simulator) (hlen : s.fReg.len = 4)
    (hinst : s.fReg.inst < 2 ^ 32) (hop : opcode s.fReg.inst = OP_IMM) :
    (∀ v, (funct3 s.fReg.inst, v) ∈
        [(0, Inst.ADDI), (2, Inst.SLTI), (3, Inst.SLTIU), (4, Inst.XORI), (6, Inst.ORI),
         (7, Inst.ANDI)] →
      decode s = .running { s with dReg :=
        { inst := v, dest := some (rd s.fReg.inst : Nat),
          op1 := some (s.reg (rs1 s.fReg.inst)), op2 := some (imm_i s.fReg.inst),
          offset := none } }) ∧
    (∀ v, (funct3 s.fReg.inst, (s.fReg.inst >>> 26) &&& 0x3F, v) ∈
        [(1, 0x0, Inst.SLLI), (5, 0x0, Inst.SRLI), (5, 0x10, Inst.SRAI)] →
      decode s = .running { s with dReg :=
        { inst := v, dest := some (rd s.fReg.inst : Nat),
          op1 := some (s.reg (rs1 s.fReg.inst)),
          op2 := some (((s.fReg.inst >>> 20) &&& 0x3F : Nat) : Int),
          offset := none } }) ∧
    (funct3 s.fReg.inst = 5 → (s.fReg.inst >>> 26) &&& 0x3F ≠ 0x0 →
      (s.fReg.inst >>> 26) &&& 0x3F ≠ 0x10 → decode s = .exited .unknownFunct7 s) ∧
    (s.fReg.inst >>> 20) &&& 0x3F ≤ 63 := by
  refine ⟨?_, ?_, ?_, ?_⟩
  · intro v hv
    simp only [List.mem_cons, Prod.mk.injEq, List.mem_singleton, List.not_mem_nil,
      or_false] at hv
    rcases hv with h | h | h | h | h | h <;>
      obtain ⟨h3, rfl⟩ := h <;>
      simp [decode, hlen, decode_switch_OP_IMM _ _ hop, decode_OP_IMM, h3,
        decode_commit, instnameOf, Inst.ordinal, INSTNAME]
  · intro v hv
    simp only [List.mem_cons, Prod.mk.injEq, List.mem_singleton, List.not_mem_nil,
      or_false] at hv
    rcases hv with h | h | h <;>
      obtain ⟨h3, h6, rfl⟩ := h <;>
      simp [decode, hlen, decode_switch_OP_IMM _ _ hop, decode_OP_IMM, h3, h6,
        decode_commit, instnameOf, Inst.ordinal, INSTNAME, and64_imm_i _ hinst]
  · intro h3 h0 h16
    apply decode_of_switch_error hlen
    rw [decode_switch_OP_IMM _ _ hop]
    simp [decode_OP_IMM, h3, h0, h16]
  · have hr : (s.fReg.inst >>> 20) &&& 0x3F = s.fReg.inst >>> 20 % 2 ^ 6 :=
      Nat.and_pow_two_sub_one_eq_mod _ 6
    rw [hr]
    omega

/-- Witness of C9 at the word 0x43F05093 (SRAI x1, x0, 63). -/
theorem decode_OP_IMM_variants_witness :
    (fetched 0x43F05093).fReg.len = 4 ∧ (fetched 0x43F05093).fReg.inst < 2 ^ 32 ∧
    opcode (fetched 0x43F05093).fReg.inst = OP_IMM ∧
    decode (fetched 0x43F05093) = .running { fetched 0x43F05093 with dReg :=
      { inst := .SRAI, dest := some 1, op1 := some 0, op2 := some 63, offset := none } } :=
  ⟨rfl, by decide, rfl,
    (decode_OP_IMM_variants (fetched 0x43F05093) rfl (by decide) rfl).2.1 Inst.SRAI
      (by decide)⟩

/-! ## Unknown opcodes -/

/-- C10: for every state whose fetch record has length 4 and whose opcode field
is none of the eleven family opcodes, `decode` ends the run with the
unsupported-opcode exit, and the state at the exit is the state at entry: no
decode record is committed, `pc` and the registers are unchanged. -/
theorem decode_unknown_opcode (s : Simulator) (hlen : s.fReg.len = 4)
    (hop : opcode s.fReg.inst ∉
      [OP_REG, OP_IMM, OP_LUI, OP_AUIPC, OP_JAL, OP_JALR, OP_BRANCH, OP_STORE, OP_LOAD,
       OP_SYSTEM, OP_ADDIW]) :
    decode s = .exited .unsupportedOpcode s := by
  simp only [List.mem_cons, List.mem_singleton, List.not_mem_nil, or_false, not_or] at hop
  obtain ⟨h1, h2, h3, h4, h5, h6, h7, h8, h9, h10, h11⟩ := hop
  apply decode_of_switch_error hlen
  simp [decode_switch, h1, h2, h3, h4, h5, h6, h7, h8, h9, h10, h11, decode_default]

/-- Witness of C10 at the word 0x0000003B (ADDW x0, x0, x0: opcode 0x3B). -/
theorem decode_unknown_opcode_witness :
    (fetched 0x0000003B).fReg.len = 4 ∧
    opcode (fetched 0x0000003B).fReg.inst ∉
      [OP_REG, OP_IMM, OP_LUI, OP_AUIPC, OP_JAL, OP_JALR, OP_BRANCH, OP_STORE, OP_LOAD,
       OP_SYSTEM, OP_ADDIW] ∧
    decode (fetched 0x0000003B) = .exited .unsupportedOpcode (fetched 0x0000003B) :=
  ⟨rfl, by decide, decode_unknown_opcode (fetched 0x0000003B) rfl (by decide)⟩

/-! ## What the stages leave unchanged -/

theorem decode_commit_state (s : Simulator) (l : Locals) :
    (decode_commit s l).state = { s with dReg := (decode_commit s l).state.dReg } := by
  unfold decode_commit
  split
  · rfl
  · split <;> rfl

theorem decode_state (s : Simulator) :
    (decode s).state = { s with dReg := (decode s).state.dReg } := by
  unfold decode
  split
  · split
    · rfl
    · exact decode_commit_state s _
  · rfl

theorem decode_exited_state {s s1 : Simulator} {e : Fatal} (h : decode s = .exited e s1) :
    s1 = s := by
  unfold decode at h
  split at h
  · split at h
    · cases h
      rfl
    · unfold decode_commit at h
      split at h
      · cases h
        rfl
      · split at h
        · cases h
          rfl
        · cases h
  · cases h
    rfl

theorem fetch_reg (s : Simulator) :
    (fetch s).state.reg = s.reg ∧ (fetch s).state.memory = s.memory ∧
    (fetch s).state.dReg = s.dReg := by
  unfold fetch
  split
  · exact ⟨rfl, rfl, rfl⟩
  · dsimp only
    split <;> exact ⟨rfl, rfl, rfl⟩

theorem cycle_reg (s : Simulator) :
    (cycle s).state.reg = s.reg ∧ (cycle s).state.memory = s.memory := by
  have hf := fetch_reg s
  unfold cycle
  split
  · rename_i e s1 h
    rw [h] at hf
    exact ⟨hf.1, hf.2.1⟩
  · rename_i s1 h
    rw [h] at hf
    have hd := decode_state s1
    split
    · rename_i e s2 h2
      rw [h2] at hd
      simp only [Outcome.state] at hd hf
      rw [hd]
      exact ⟨hf.1, hf.2.1⟩
    · rename_i s2 h2
      rw [h2] at hd
      simp only [Outcome.state] at hd hf
      unfold writeBack memoryAccess excecute
      simp only [Outcome.state]
      rw [hd]
      exact ⟨hf.1, hf.2.1⟩

theorem run_reg (n : Nat) (s : Simulator) :
    (run n s).state.reg = s.reg ∧ (run n s).state.memory = s.memory := by
  induction n with
  | zero => exact ⟨rfl, rfl⟩
  | succ n ih =>
    unfold run
    split
    · rename_i e s1 h
      rw [h] at ih
      exact ih
    · rename_i s1 h
      rw [h] at ih
      have hc := cycle_reg s1
      exact ⟨hc.1.trans ih.1, hc.2.trans ih.2⟩

/-- One completed cycle on a 4-byte word: `fetch` stores the word and moves `pc`
by 4, `decode` commits the record of the opcode switch, the last three stages
change nothing. -/
theorem cycle_of_word (s : Simulator) (w : Nat) (l : Locals) (hpc : s.pc % 2 = 0)
    (hw : s.memory s.pc % 2 ^ 32 = w) (hlow : w &&& 0x3 = 0x3)
    (hsw : decode_switch s.reg w = .ok l) (hn : instnameOf l.insttype = some l.instname) :
    cycle s = .running { s with
      pc := (s.pc + 4) % 2 ^ 64,
      fReg := { inst := w, len := 4 },
      dReg := { inst := l.insttype, dest := l.dest, op1 := l.op1, op2 := l.op2,
                offset := l.offset } } := by
  have hne : ¬ (s.pc % 2 ≠ 0) := by omega
  have hf : fetch s = .running { s with
      fReg := { inst := w, len := 4 }, pc := (s.pc + 4) % 2 ^ 64 } := by
    unfold fetch
    rw [if_neg hne]
    simp only [hw]
    rw [if_pos hlow]
  have hd : decode { s with fReg := { inst := w, len := 4 }, pc := (s.pc + 4) % 2 ^ 64 }
      = .running { s with
          pc := (s.pc + 4) % 2 ^ 64,
          fReg := { inst := w, len := 4 },
          dReg := { inst := l.insttype, dest := l.dest, op1 := l.op1, op2 := l.op2,
                    offset := l.offset } } :=
    (decode_of_switch_ok rfl hsw).trans (decode_commit_of_instname hn)
  unfold cycle
  rw [hf]
  simp only [hd]
  rfl

/-! ## `OP_SYSTEM` -/

theorem decode_word_commit (s : Simulator) (w : Nat) (l : Locals)
    (h : decode_switch s.reg w = .ok l) :
    decode { s with fReg := { inst := w, len := 4 } }
      = decode_commit { s with fReg := { inst := w, len := 4 } } l :=
  decode_of_switch_ok rfl h

theorem decode_switch_OP_SYSTEM (reg : Nat → Int) (inst : Nat) (h : opcode inst = OP_SYSTEM) :
    decode_switch reg inst = decode_OP_SYSTEM reg inst := by
  simp [decode_switch, h, OP_REG, OP_IMM, OP_LUI, OP_AUIPC, OP_JAL, OP_JALR, OP_BRANCH,
    OP_STORE, OP_LOAD, OP_SYSTEM]

/-- For every word with opcode `OP_SYSTEM` that is not ECALL, the opcode switch
does not exit: it leaves `instname = ""` and `insttype = UNKNOWN`, and `decode`
ends at the read of `INSTNAME[insttype]`. -/
theorem decode_OP_SYSTEM_not_ecall (s : Simulator) (hlen : s.fReg.len = 4)
    (hop : opcode s.fReg.inst = OP_SYSTEM)
    (hf : ¬ (funct3 s.fReg.inst = 0x0 ∧ funct7 s.fReg.inst = 0x000)) :
    decode_switch s.reg s.fReg.inst = .ok
      { instname := "", insttype := .UNKNOWN, op1 := some (s.reg 10), op2 := none,
        offset := none, dest := none } ∧
    decode s = .exited .instnameOutOfTable s := by
  have hsw : decode_switch s.reg s.fReg.inst = .ok
      { instname := "", insttype := .UNKNOWN, op1 := some (s.reg 10), op2 := none,
        offset := none, dest := none } := by
    rw [decode_switch_OP_SYSTEM _ _ hop]
    unfold decode_OP_SYSTEM
    rw [if_neg hf]
  refine ⟨hsw, ?_⟩
  rw [decode_of_switch_ok hlen hsw]
  rfl

/-- C11 (defect in the code): the word 0x00001073 (CSRRW x0, 0, x0) has opcode
`OP_SYSTEM` and funct3 = 1, so it is not ECALL, and `decode` does not end with
an unknown-funct exit at dispatch: the `else` branch of `case OP_SYSTEM` prints
its message without calling `exit`, the switch returns with `instname = ""` and
`insttype = UNKNOWN`, and the run only ends at the consistency check, on the
read of `INSTNAME[UNKNOWN]`. -/
theorem decode_system_reaches_check (s : Simulator) :
    opcode 0x00001073 = OP_SYSTEM ∧ funct3 0x00001073 = 1 ∧
    decode_switch s.reg 0x00001073 = .ok
      { instname := "", insttype := .UNKNOWN, op1 := some (s.reg 10), op2 := none,
        offset := none, dest := none } ∧
    decode { s with fReg := { inst := 0x00001073, len := 4 } }
      = .exited .instnameOutOfTable { s with fReg := { inst := 0x00001073, len := 4 } } ∧
    decode { s with fReg := { inst := 0x00001073, len := 4 } }
      ≠ .exited .unknownFunct3 { s with fReg := { inst := 0x00001073, len := 4 } } ∧
    decode { s with fReg := { inst := 0x00001073, len := 4 } }
      ≠ .exited .unknownFunct7 { s with fReg := { inst := 0x00001073, len := 4 } } := by
  have hsw : decode_switch s.reg 0x00001073 = .ok
      { instname := "", insttype := .UNKNOWN, op1 := some (s.reg 10), op2 := none,
        offset := none, dest := none } := rfl
  have hd : decode { s with fReg := { inst := 0x00001073, len := 4 } }
      = .exited .instnameOutOfTable { s with fReg := { inst := 0x00001073, len := 4 } } :=
    (decode_word_commit s _ _ hsw).trans (by rfl)
  refine ⟨rfl, rfl, hsw, hd, ?_, ?_⟩
  · rw [hd]
    intro h
    cases h
  · rw [hd]
    intro h
    cases h

/-! ## The consistency check -/

theorem decode_OP_REG_funct_instname (f3 f7 : Nat) (n : String) (v : Inst)
    (h : decode_OP_REG_funct f3 f7 = .ok (n, v)) : instnameOf v = some n := by
  unfold decode_OP_REG_funct at h
  split_ifs at h <;> cases h <;> rfl

theorem decode_OP_BRANCH_funct_instname (f3 : Nat) (n : String) (v : Inst)
    (h : decode_OP_BRANCH_funct f3 = .ok (n, v)) : instnameOf v = some n := by
  unfold decode_OP_BRANCH_funct at h
  split_ifs at h <;> cases h <;> rfl

theorem decode_OP_STORE_funct_instname (f3 : Nat) (n : String) (v : Inst)
    (h : decode_OP_STORE_funct f3 = .ok (n, v)) : instnameOf v = some n := by
  unfold decode_OP_STORE_funct at h
  split_ifs at h <;> cases h <;> rfl

theorem decode_OP_LOAD_funct_instname (f3 : Nat) (n : String) (v : Inst)
    (h : decode_OP_LOAD_funct f3 = .ok (n, v)) : instnameOf v = some n := by
  unfold decode_OP_LOAD_funct at h
  split_ifs at h <;> cases h <;> rfl

theorem decode_OP_REG_instname (reg : Nat → Int) (inst : Nat) (l : Locals)
    (h : decode_OP_REG reg inst = .ok l) : instnameOf l.insttype = some l.instname := by
  unfold decode_OP_REG at h
  split at h
  · cases h
  · rename_i n v hf
    cases h
    exact decode_OP_REG_funct_instname _ _ n v hf

theorem decode_OP_BRANCH_instname (reg : Nat → Int) (inst : Nat) (l : Locals)
    (h : decode_OP_BRANCH reg inst = .ok l) : instnameOf l.insttype = some l.instname := by
  unfold decode_OP_BRANCH at h
  split at h
  · cases h
  · rename_i n v hf
    cases h
    exact decode_OP_BRANCH_funct_instname _ n v hf

theorem decode_OP_STORE_instname (reg : Nat → Int) (inst : Nat) (l : Locals)
    (h : decode_OP_STORE reg inst = .ok l) : instnameOf l.insttype = some l.instname := by
  unfold decode_OP_STORE at h
  split at h
  · cases h
  · rename_i n v hf
    cases h
    exact decode_OP_STORE_funct_instname _ n v hf

theorem decode_OP_LOAD_instname (reg : Nat → Int) (inst : Nat) (l : Locals)
    (h : decode_OP_LOAD reg inst = .ok l) : instnameOf l.insttype = some l.instname := by
  unfold decode_OP_LOAD at h
  split at h
  · cases h
  · rename_i n v hf
    cases h
    exact decode_OP_LOAD_funct_instname _ n v hf

theorem funct3_cases (inst : Nat) :
    funct3 inst = 0 ∨ funct3 inst = 1 ∨ funct3 inst = 2 ∨ funct3 inst = 3 ∨
    funct3 inst = 4 ∨ funct3 inst = 5 ∨ funct3 inst = 6 ∨ funct3 inst = 7 := by
  have h : funct3 inst = (inst >>> 12) % 2 ^ 3 := Nat.and_pow_two_sub_one_eq_mod _ 3
  omega

theorem decode_OP_IMM_instname (reg : Nat → Int) (inst : Nat) (l : Locals)
    (h : decode_OP_IMM reg inst = .ok l) : instnameOf l.insttype = some l.instname := by
  rcases funct3_cases inst with c | c | c | c | c | c | c | c
  · simp [decode_OP_IMM, c] at h
    subst h
    rfl
  · simp [decode_OP_IMM, c] at h
    subst h
    rfl
  · simp [decode_OP_IMM, c] at h
    subst h
    rfl
  · simp [decode_OP_IMM, c] at h
    subst h
    rfl
  · simp [decode_OP_IMM, c] at h
    subst h
    rfl
  · by_cases t0 : (inst >>> 26) &&& 0x3F = 0x0
    · simp [decode_OP_IMM, c, t0] at h
      subst h
      rfl
    · by_cases t1 : (inst >>> 26) &&& 0x3F = 0x10
      · simp [decode_OP_IMM, c, t1] at h
        subst h
        rfl
      · simp [decode_OP_IMM, c, t0, t1] at h
  · simp [decode_OP_IMM, c] at h
    subst h
    rfl
  · simp [decode_OP_IMM, c] at h
    subst h
    rfl

theorem decode_OP_SYSTEM_instname (reg : Nat → Int) (inst : Nat) (l : Locals)
    (h : decode_OP_SYSTEM reg inst = .ok l) (hv : l.insttype ≠ .UNKNOWN) :
    instnameOf l.insttype = some l.instname := by
  unfold decode_OP_SYSTEM at h
  generalize funct3 inst = f3 at h
  generalize funct7 inst = f7 at h
  split_ifs at h <;> cases h
  · rfl
  · exact absurd rfl hv

theorem decode_OP_ADDIW_not_ok (reg : Nat → Int) (inst : Nat) (l : Locals) :
    decode_OP_ADDIW reg inst ≠ .ok l := by
  unfold decode_OP_ADDIW decode_default
  generalize funct3 inst = f3
  dsimp only
  split_ifs <;> intro h <;> cases h

theorem decode_switch_OP_REG (reg : Nat → Int) (inst : Nat) (h : opcode inst = OP_REG) :
    decode_switch reg inst = decode_OP_REG reg inst := by
  simp [decode_switch, h]

theorem decode_switch_OP_AUIPC (reg : Nat → Int) (inst : Nat) (h : opcode inst = OP_AUIPC) :
    decode_switch reg inst = decode_OP_AUIPC inst := by
  simp [decode_switch, h, OP_REG, OP_IMM, OP_LUI, OP_AUIPC]

theorem decode_switch_OP_JAL (reg : Nat → Int) (inst : Nat) (h : opcode inst = OP_JAL) :
    decode_switch reg inst = decode_OP_JAL inst := by
  simp [decode_switch, h, OP_REG, OP_IMM, OP_LUI, OP_AUIPC, OP_JAL]

theorem decode_switch_OP_BRANCH (reg : Nat → Int) (inst : Nat) (h : opcode inst = OP_BRANCH) :
    decode_switch reg inst = decode_OP_BRANCH reg inst := by
  simp [decode_switch, h, OP_REG, OP_IMM, OP_LUI, OP_AUIPC, OP_JAL, OP_JALR, OP_BRANCH]

theorem decode_switch_OP_LOAD (reg : Nat → Int) (inst : Nat) (h : opcode inst = OP_LOAD) :
    decode_switch reg inst = decode_OP_LOAD reg inst := by
  simp [decode_switch, h, OP_REG, OP_IMM, OP_LUI, OP_AUIPC, OP_JAL, OP_JALR, OP_BRANCH,
    OP_STORE, OP_LOAD]

theorem decode_switch_instname (reg : Nat → Int) (inst : Nat) (l : Locals)
    (h : decode_switch reg inst = .ok l) (hv : l.insttype ≠ .UNKNOWN) :
    instnameOf l.insttype = some l.instname := by
  by_cases c1 : opcode inst = OP_REG
  · rw [decode_switch_OP_REG _ _ c1] at h
    exact decode_OP_REG_instname _ _ _ h
  by_cases c2 : opcode inst = OP_IMM
  · rw [decode_switch_OP_IMM _ _ c2] at h
    exact decode_OP_IMM_instname _ _ _ h
  by_cases c3 : opcode inst = OP_LUI
  · rw [decode_switch_OP_LUI _ _ c3] at h
    cases h
    rfl
  by_cases c4 : opcode inst = OP_AUIPC
  · rw [decode_switch_OP_AUIPC _ _ c4] at h
    cases h
    rfl
  by_cases c5 : opcode inst = OP_JAL
  · rw [decode_switch_OP_JAL _ _ c5] at h
    cases h
    rfl
  by_cases c6 : opcode inst = OP_JALR
  · rw [decode_switch_OP_JALR _ _ c6] at h
    cases h
    rfl
  by_cases c7 : opcode inst = OP_BRANCH
  · rw [decode_switch_OP_BRANCH _ _ c7] at h
    exact decode_OP_BRANCH_instname _ _ _ h
  by_cases c8 : opcode inst = OP_STORE
  · rw [decode_switch_OP_STORE _ _ c8] at h
    exact decode_OP_STORE_instname _ _ _ h
  by_cases c9 : opcode inst = OP_LOAD
  · rw [decode_switch_OP_LOAD _ _ c9] at h
    exact decode_OP_LOAD_instname _ _ _ h
  by_cases c10 : opcode inst = OP_SYSTEM
  · rw [decode_switch_OP_SYSTEM _ _ c10] at h
    exact decode_OP_SYSTEM_instname _ _ _ h hv
  by_cases c11 : opcode inst = OP_ADDIW
  · rw [decode_switch_OP_ADDIW _ _ c11] at h
    exact absurd h (decode_OP_ADDIW_not_ok _ _ _)
  simp [decode_switch, c1, c2, c3, c4, c5, c6, c7, c8, c9, c10, c11, decode_default] at h

/-- C12: for every state whose fetch record has length 4 and every record `l`
that the opcode switch returns with a variant of the instruction set
(`insttype` other than `UNKNOWN`), the mnemonic chosen during dispatch is the
entry `INSTNAME[insttype]`, with the variants numbered in the order
LUI, AUIPC, JAL, ..., DIV, REM; so the consistency check passes and `decode`
commits the record. The table has 45 entries, one per variant: read through the
45 variants in order it returns its own entries in order, and no two variants
share an index. -/
theorem instname_matches_dispatch (s : Simulator) (l : Locals) (hlen : s.fReg.len = 4)
    (hsw : decode_switch s.reg s.fReg.inst = .ok l) (hv : l.insttype ≠ .UNKNOWN) :
    instnameOf l.insttype = some l.instname ∧
    decode s ≠ .exited .unmatchInstname s ∧
    decode s = .running { s with dReg :=
      { inst := l.insttype, dest := l.dest, op1 := l.op1, op2 := l.op2,
        offset := l.offset } } ∧
    INSTNAME.length = 45 ∧
    [Inst.LUI, Inst.AUIPC, Inst.JAL, Inst.JALR, Inst.BEQ, Inst.BNE, Inst.BLT, Inst.BGE,
      Inst.BLTU, Inst.BGEU, Inst.LB, Inst.LH, Inst.LW, Inst.LD, Inst.LBU, Inst.LHU,
      Inst.SB, Inst.SH, Inst.SW, Inst.SD, Inst.ADDI, Inst.SLTI, Inst.SLTIU, Inst.XORI,
      Inst.ORI, Inst.ANDI, Inst.SLLI, Inst.SRLI, Inst.SRAI, Inst.ADD, Inst.SUB, Inst.SLL,
      Inst.SLT, Inst.SLTU, Inst.XOR, Inst.SRL, Inst.SRA, Inst.OR, Inst.AND, Inst.ECALL,
      Inst.ADDIW, Inst.MUL, Inst.MULH, Inst.DIV, Inst.REM].map instnameOf
      = INSTNAME.map some ∧
    (∀ v w : Inst, v.ordinal = w.ordinal → v = w) := by
  have hn := decode_switch_instname s.reg s.fReg.inst l hsw hv
  have hd : decode s = .running { s with dReg :=
      { inst := l.insttype, dest := l.dest, op1 := l.op1, op2 := l.op2,
        offset := l.offset } } :=
    (decode_of_switch_ok hlen hsw).trans (decode_commit_of_instname hn)
  refine ⟨hn, ?_, hd, rfl, rfl, ?_⟩
  · rw [hd]
    intro h
    cases h
  · intro v w h
    cases v <;> cases w <;> first | rfl | (exact absurd h (by decide))

/-- Witness of C12 at the word 0x00000073 (ECALL), decoded in the state
`fetched 0x00000073`. -/
theorem instname_matches_dispatch_witness :
    (fetched 0x00000073).fReg.len = 4 ∧
    decode_switch (fetched 0x00000073).reg (fetched 0x00000073).fReg.inst = .ok
      { instname := "ecall", insttype := .ECALL, op1 := some 0, op2 := none,
        offset := none, dest := none } ∧
    Inst.ECALL ≠ Inst.UNKNOWN ∧
    instnameOf Inst.ECALL = some "ecall" :=
  ⟨rfl, rfl, by decide,
    (instname_matches_dispatch (fetched 0x00000073)
      { instname := "ecall", insttype := .ECALL, op1 := some 0, op2 := none,
        offset := none, dest := none } rfl rfl (by decide)).1⟩

/-! ## Cycles -/

theorem cycle_running_pc {s s1 : Simulator} (h : cycle s = .running s1) :
    s1.pc = (s.pc + 4) % 2 ^ 64 := by
  unfold cycle at h
  split at h
  · cases h
  · rename_i s2 hf
    split at h
    · cases h
    · rename_i s3 hd
      cases h
      have hs := decode_state s2
      rw [hd] at hs
      simp only [Outcome.state] at hs
      unfold writeBack memoryAccess excecute
      rw [hs]
      show s2.pc = (s.pc + 4) % 2 ^ 64
      unfold fetch at hf
      split at hf
      · cases hf
      · dsimp only at hf
        split at hf
        · cases hf
          rfl
        · cases hf
          have hx : decode { s with
              fReg := { inst := s.memory s.pc % 2 ^ 32 &&& 0xFFFF, len := 2 },
              pc := (s.pc + 2) % 2 ^ 64 } = .exited .unsupported16bit { s with
              fReg := { inst := s.memory s.pc % 2 ^ 32 &&& 0xFFFF, len := 2 },
              pc := (s.pc + 2) % 2 ^ 64 } := by
            unfold decode
            rw [if_neg (show ¬ ((2 : Nat) = 4) by decide)]
          rw [hx] at hd
          cases hd

theorem run_running_pc (n : Nat) {s s1 : Simulator} (hs : s.pc = 0)
    (h : run n s = .running s1) : s1.pc = (4 * n) % 2 ^ 64 := by
  induction n generalizing s1 with
  | zero =>
    cases h
    rw [hs]
    rfl
  | succ n ih =>
    unfold run at h
    split at h
    · cases h
    · rename_i s2 h2
      rw [cycle_running_pc h, ih h2]
      omega

theorem run_running_reg (n : Nat) {s s1 : Simulator} (h : run n s = .running s1) :
    s1.reg = s.reg ∧ s1.memory = s.memory := by
  have hr := run_reg n s
  rw [h] at hr
  exact hr

theorem run_running_earlier (n : Nat) {s s1 : Simulator} (h : run n s = .running s1) :
    ∀ k, k ≤ n → ∃ sk, run k s = .running sk := by
  induction n generalizing s1 with
  | zero =>
    intro k hk
    have hk0 : k = 0 := by omega
    subst hk0
    exact ⟨s1, h⟩
  | succ n ih =>
    intro k hk
    by_cases hkn : k = n + 1
    · subst hkn
      exact ⟨s1, h⟩
    · unfold run at h
      split at h
      · cases h
      · rename_i s2 h2
        exact ih h2 k (by omega)

/-- The run on a memory that holds ADDI x0, x0, 0 at every address: every cycle
completes. -/
theorem run_addi_nop (f : FReg) (d : DReg) (n : Nat) :
    run (n + 1) (Simulator.construct (constMemory 0x00000013) f d) = .running
      { pc := (4 * (n + 1)) % 2 ^ 64, reg := fun _ => 0,
        fReg := { inst := 0x00000013, len := 4 },
        dReg := { inst := .ADDI, dest := some 0, op1 := some 0, op2 := some 0,
                  offset := none },
        memory := constMemory 0x00000013 } := by
  induction n with
  | zero =>
    unfold run
    unfold run
    exact cycle_of_word (Simulator.construct (constMemory 0x00000013) f d) 0x00000013
      { instname := "addi", insttype := .ADDI, op1 := some 0, op2 := some 0,
        offset := none, dest := some 0 } rfl rfl rfl rfl rfl
  | succ n ih =>
    unfold run
    rw [ih]
    have hc := cycle_of_word
      { pc := (4 * (n + 1)) % 2 ^ 64, reg := fun _ => 0,
        fReg := { inst := 0x00000013, len := 4 },
        dReg := { inst := .ADDI, dest := some 0, op1 := some 0, op2 := some 0,
                  offset := none },
        memory := constMemory 0x00000013 } 0x00000013
      { instname := "addi", insttype := .ADDI, op1 := some 0, op2 := some 0,
        offset := none, dest := some 0 } (by show (4 * (n + 1)) % 2 ^ 64 % 2 = 0; omega)
      rfl rfl rfl rfl
    have hpc : ((4 * (n + 1)) % 2 ^ 64 + 4) % 2 ^ 64 = (4 * (n + 1 + 1)) % 2 ^ 64 := by
      omega
    simp only [hpc] at hc
    exact hc

/-- C13: zero-register invariant. From the constructor's state, for every
memory content and every n, register 0 holds 0 in the state reached by n
iterations of the loop of `simulate`, whether all n cycles completed or one of
them ended the run; and on a memory holding ADDI x0, x0, 0 everywhere, whose
decoded record names register 0 as destination, every number of cycles
completes with register 0 still 0. -/
theorem reg_zero_invariant (memory : Nat → Nat) (f : FReg) (d : DReg) (n : Nat) :
    (run n (Simulator.construct memory f d)).state.reg 0 = 0 ∧
    (∀ s1, run n (Simulator.construct memory f d) = .running s1 → s1.reg 0 = 0) ∧
    (∃ s1, run (n + 1) (Simulator.construct (constMemory 0x00000013) f d) = .running s1 ∧
      s1.dReg.inst = .ADDI ∧ s1.dReg.dest = some 0 ∧ s1.reg 0 = 0) := by
  refine ⟨?_, ?_, ?_⟩
  · rw [(run_reg n _).1]
    rfl
  · intro s1 h
    rw [(run_running_reg n h).1]
    rfl
  · exact ⟨_, run_addi_nop f d n, rfl, rfl, rfl⟩

/-- C14: scenario 1. For every state with even pc and register 0 equal to 0 in
which the memory returns the word 0x00000013 at pc, one cycle completes, the
decoded record is ADDI with dest = 0, op1 = 0, op2 = 0, register 0 is still 0
afterwards and the 64-bit program counter has advanced by 4. -/
theorem cycle_addi_x0 (s : Simulator) (hpc : s.pc % 2 = 0) (hr : s.reg 0 = 0)
    (hm : s.memory s.pc = 0x00000013) :
    cycle s = .running { s with
      pc := (s.pc + 4) % 2 ^ 64,
      fReg := { inst := 0x00000013, len := 4 },
      dReg := { inst := .ADDI, dest := some 0, op1 := some 0, op2 := some 0,
                offset := none } } ∧
    (cycle s).state.reg 0 = 0 ∧
    (cycle s).state.pc = (s.pc + 4) % 2 ^ 64 ∧
    (s.pc + 4 < 2 ^ 64 → (cycle s).state.pc = s.pc + 4) := by
  have hsw : decode_switch s.reg 0x00000013 = .ok
      { instname := "addi", insttype := .ADDI, op1 := some 0, op2 := some 0,
        offset := none, dest := some 0 } := by
    have h0 : decode_switch s.reg 0x00000013 = .ok
        { instname := "addi", insttype := .ADDI, op1 := some (s.reg 0), op2 := some 0,
          offset := none, dest := some 0 } := rfl
    rw [h0, hr]
  have hc := cycle_of_word s 0x00000013 _ hpc (by rw [hm]; rfl) rfl hsw rfl
  refine ⟨hc, ?_, ?_, ?_⟩
  · rw [hc]
    exact hr
  · rw [hc]
    rfl
  · intro hlt
    rw [hc]
    exact Nat.mod_eq_of_lt hlt

/-- Witness of C14 in the state `fetched 0x00000013` (pc = 4, all registers 0,
the word at every address). -/
theorem cycle_addi_x0_witness :
    (fetched 0x00000013).pc % 2 = 0 ∧ (fetched 0x00000013).reg 0 = 0 ∧
    (fetched 0x00000013).memory (fetched 0x00000013).pc = 0x00000013 ∧
    (cycle (fetched 0x00000013)).state.reg 0 = 0 ∧
    (cycle (fetched 0x00000013)).state.pc = (4 + 4) % 2 ^ 64 :=
  ⟨rfl, rfl, rfl, (cycle_addi_x0 (fetched 0x00000013) rfl rfl rfl).2.1,
    (cycle_addi_x0 (fetched 0x00000013) rfl rfl rfl).2.2.1⟩

/-! ## Scenarios that need an execute or write-back stage -/

theorem cycle_addi_x1_word (s : Simulator) (hpc : s.pc % 2 = 0) (hr : s.reg 0 = 0)
    (hm : s.memory s.pc = 0x00100093) :
    cycle s = .running { s with
      pc := (s.pc + 4) % 2 ^ 64,
      fReg := { inst := 0x00100093, len := 4 },
      dReg := { inst := .ADDI, dest := some 1, op1 := some 0, op2 := some 1,
                offset := none } } := by
  have hsw : decode_switch s.reg 0x00100093 = .ok
      { instname := "addi", insttype := .ADDI, op1 := some 0, op2 := some 1,
        offset := none, dest := some 1 } := by
    have h0 : decode_switch s.reg 0x00100093 = .ok
        { instname := "addi", insttype := .ADDI, op1 := some (s.reg 0), op2 := some 1,
          offset := none, dest := some 1 } := rfl
    rw [h0, hr]
  exact cycle_of_word s 0x00100093 _ hpc (by rw [hm]; rfl) rfl hsw rfl

/-- C15 (counterexample): the claim as stated fails. In the state
`fetched 0x00100093` (even pc, all registers 0, the word 0x00100093 at every
address) the cycle completes and register 1 is 0 afterwards, not 1. -/
theorem cycle_addi_x1_no_write_back :
    ¬ (∀ s : Simulator, s.pc % 2 = 0 → s.reg 0 = 0 → s.memory s.pc = 0x00100093 →
        ∃ s1, cycle s = .running s1 ∧ s1.dReg.inst = .ADDI ∧ s1.dReg.dest = some 1 ∧
          s1.dReg.op1 = some 0 ∧ s1.dReg.op2 = some 1 ∧ s1.reg 1 = 1) := by
  intro h
  obtain ⟨s1, hc, _, _, _, _, hr1⟩ := h (fetched 0x00100093) rfl rfl rfl
  have hreg := (cycle_reg (fetched 0x00100093)).1
  rw [hc] at hreg
  simp only [Outcome.state] at hreg
  rw [hreg] at hr1
  exact absurd hr1 (by decide)

/-- C15 (amended): scenario 2 without the write. For every state with even pc
and register 0 equal to 0 in which the memory returns the word 0x00100093 at
pc, one cycle completes and the decoded record is ADDI with dest = 1,
op1 = reg[0] = 0 and op2 = 1; the write-back stage is an empty body, so every
register, register 1 included, holds after the cycle the value it held
before. -/
theorem cycle_addi_x1 (s : Simulator) (hpc : s.pc % 2 = 0) (hr : s.reg 0 = 0)
    (hm : s.memory s.pc = 0x00100093) :
    cycle s = .running { s with
      pc := (s.pc + 4) % 2 ^ 64,
      fReg := { inst := 0x00100093, len := 4 },
      dReg := { inst := .ADDI, dest := some 1, op1 := some 0, op2 := some 1,
                offset := none } } ∧
    (cycle s).state.reg = s.reg ∧
    (cycle s).state.reg 1 = s.reg 1 := by
  have hreg := (cycle_reg s).1
  exact ⟨cycle_addi_x1_word s hpc hr hm, hreg, by rw [hreg]⟩

/-- Witness of C15 (amended) in the state `fetched 0x00100093`: register 1 is
0 after the cycle. -/
theorem cycle_addi_x1_witness :
    (fetched 0x00100093).pc % 2 = 0 ∧ (fetched 0x00100093).reg 0 = 0 ∧
    (fetched 0x00100093).memory (fetched 0x00100093).pc = 0x00100093 ∧
    (cycle (fetched 0x00100093)).state.reg 1 = 0 :=
  ⟨rfl, rfl, rfl, (cycle_addi_x1 (fetched 0x00100093) rfl rfl rfl).2.2⟩

theorem cycle_beq_plus8_word (s : Simulator) (hpc : s.pc % 2 = 0)
    (hm : s.memory s.pc = 0x00108463) :
    cycle s = .running { s with
      pc := (s.pc + 4) % 2 ^ 64,
      fReg := { inst := 0x00108463, len := 4 },
      dReg := { inst := .BEQ, dest := none, op1 := some (s.reg 1), op2 := some (s.reg 1),
                offset := some 8 } } :=
  cycle_of_word s 0x00108463
    { instname := "beq", insttype := .BEQ, op1 := some (s.reg 1), op2 := some (s.reg 1),
      offset := some 8, dest := none } hpc (by rw [hm]; rfl) rfl rfl rfl

/-- C16 (counterexample): the claim as stated fails. In the state
`fetched 0x00108463` (pc = A = 4, the word BEQ x1, x1, +8 at every address) the
cycle ends with pc = 8 = A + 4, not with A + 8 = 12. -/
theorem cycle_beq_does_not_branch :
    ¬ (∀ s : Simulator, s.pc % 2 = 0 → s.memory s.pc = 0x00108463 →
        ∃ s1, cycle s = .running s1 ∧ s1.pc = (s.pc + 8) % 2 ^ 64) := by
  intro h
  obtain ⟨s1, hc, hp⟩ := h (fetched 0x00108463) rfl rfl
  rw [cycle_beq_plus8_word (fetched 0x00108463) rfl rfl] at hc
  cases hc
  exact absurd hp (by decide)

/-- C16 (amended): scenario 3 without the branch. The word 0x00108463 is
BEQ x1, x1 with B-immediate +8 and the word 0xFE108EE3 is BEQ x1, x1 with the
B-type encoding of -4. For every state with even pc = A: when the word at A is
the first, one cycle completes with the decoded record BEQ, op1 = op2 = reg[1],
offset = 8, and ends with pc = A + 4 modulo 2^64; when it is the second, one
cycle completes with a decoded record BEQ, op1 = op2 = reg[1], and ends with
pc = A + 4 modulo 2^64 as well. The execute stage is an empty body: no branch
is taken. -/
theorem cycle_beq_falls_through (s : Simulator) (hpc : s.pc % 2 = 0) :
    (opcode 0x00108463 = OP_BRANCH ∧ funct3 0x00108463 = 0 ∧ rs1 0x00108463 = 1 ∧
      rs2 0x00108463 = 1 ∧
      ((0x00108463 >>> 8) % 16 : Nat) = ((8 : Int) / 2) % 16 ∧
      ((0x00108463 >>> 25) % 64 : Nat) = ((8 : Int) / 32) % 64 ∧
      ((0x00108463 >>> 7) % 2 : Nat) = ((8 : Int) / 2048) % 2 ∧
      ((0x00108463 >>> 31) % 2 : Nat) = ((8 : Int) / 4096) % 2) ∧
    (opcode 0xFE108EE3 = OP_BRANCH ∧ funct3 0xFE108EE3 = 0 ∧ rs1 0xFE108EE3 = 1 ∧
      rs2 0xFE108EE3 = 1 ∧
      ((0xFE108EE3 >>> 8) % 16 : Nat) = ((-4 : Int) / 2) % 16 ∧
      ((0xFE108EE3 >>> 25) % 64 : Nat) = ((-4 : Int) / 32) % 64 ∧
      ((0xFE108EE3 >>> 7) % 2 : Nat) = ((-4 : Int) / 2048) % 2 ∧
      ((0xFE108EE3 >>> 31) % 2 : Nat) = ((-4 : Int) / 4096) % 2) ∧
    (s.memory s.pc = 0x00108463 →
      cycle s = .running { s with
        pc := (s.pc + 4) % 2 ^ 64,
        fReg := { inst := 0x00108463, len := 4 },
        dReg := { inst := .BEQ, dest := none, op1 := some (s.reg 1),
                  op2 := some (s.reg 1), offset := some 8 } }) ∧
    (s.memory s.pc = 0xFE108EE3 →
      ∃ off, cycle s = .running { s with
        pc := (s.pc + 4) % 2 ^ 64,
        fReg := { inst := 0xFE108EE3, len := 4 },
        dReg := { inst := .BEQ, dest := none, op1 := some (s.reg 1),
                  op2 := some (s.reg 1), offset := off } }) := by
  refine ⟨⟨rfl, rfl, rfl, rfl, by decide, by decide, by decide, by decide⟩,
    ⟨rfl, rfl, rfl, rfl, by decide, by decide, by decide, by decide⟩, ?_, ?_⟩
  · exact cycle_beq_plus8_word s hpc
  · intro hm
    exact ⟨some (imm_sb 0xFE108EE3), cycle_of_word s 0xFE108EE3
      { instname := "beq", insttype := .BEQ, op1 := some (s.reg 1), op2 := some (s.reg 1),
        offset := some (imm_sb 0xFE108EE3), dest := none } hpc (by rw [hm]; rfl) rfl rfl rfl⟩

/-- Witness of C16 (amended) in the state `fetched 0x00108463` (A = 4): the
cycle ends with pc = 8. -/
theorem cycle_beq_falls_through_witness :
    (fetched 0x00108463).pc % 2 = 0 ∧
    (fetched 0x00108463).memory (fetched 0x00108463).pc = 0x00108463 ∧
    cycle (fetched 0x00108463) = .running { fetched 0x00108463 with
      pc := 8,
      dReg := { inst := .BEQ, dest := none, op1 := some 0, op2 := some 0,
                offset := some 8 } } :=
  ⟨rfl, rfl, (cycle_beq_falls_through (fetched 0x00108463) rfl).2.2.1 rfl⟩

/-! ## Fetch -/

/-- C17: for every state whose pc is odd, `fetch` ends the run with the
illegal-pc exit and the state at the exit is the state at entry (pc, registers,
fetch record and decode record unchanged, whatever the memory holds), so the
cycle ends there and `decode` does not run; for every state whose pc is even,
`fetch` returns. -/
theorem fetch_misaligned_pc (s : Simulator) :
    (s.pc % 2 = 1 → fetch s = .exited .illegalPC s ∧ cycle s = .exited .illegalPC s) ∧
    (s.pc % 2 = 0 → ∃ s1, fetch s = .running s1) := by
  refine ⟨?_, ?_⟩
  · intro hodd
    have hne : s.pc % 2 ≠ 0 := by omega
    have hf : fetch s = .exited .illegalPC s := by
      unfold fetch
      rw [if_pos hne]
    refine ⟨hf, ?_⟩
    unfold cycle
    rw [hf]
  · intro heven
    have hne : ¬ (s.pc % 2 ≠ 0) := by omega
    unfold fetch
    rw [if_neg hne]
    dsimp only
    split
    · exact ⟨_, rfl⟩
    · exact ⟨_, rfl⟩

/-- Witness of C17 at pc = 5. -/
theorem fetch_misaligned_pc_witness :
    fetch { fetched 0x00000013 with pc := 5 }
      = .exited .illegalPC { fetched 0x00000013 with pc := 5 } :=
  ((fetch_misaligned_pc { fetched 0x00000013 with pc := 5 }).1 rfl).1

/-- C18: for every state with even pc and every 32-bit word w that the memory
returns at pc: when the low two bits of w are both 1, `fetch` records w with
length 4 and moves the 64-bit pc by 4; otherwise `fetch` records w AND 0xFFFF
with length 2 and moves pc by 2, and the `decode` that follows ends the run
with the 16-bit-unsupported exit, the decode record untouched. -/
theorem fetch_length (s : Simulator) (w : Nat) (hpc : s.pc % 2 = 0)
    (hm : s.memory s.pc = w) (hw : w < 2 ^ 32) :
    (w &&& 0x3 = 0x3 →
      fetch s = .running { s with
        fReg := { inst := w, len := 4 }, pc := (s.pc + 4) % 2 ^ 64 }) ∧
    (w &&& 0x3 ≠ 0x3 →
      fetch s = .running { s with
        fReg := { inst := w &&& 0xFFFF, len := 2 }, pc := (s.pc + 2) % 2 ^ 64 } ∧
      decode { s with
        fReg := { inst := w &&& 0xFFFF, len := 2 }, pc := (s.pc + 2) % 2 ^ 64 }
        = .exited .unsupported16bit { s with
            fReg := { inst := w &&& 0xFFFF, len := 2 }, pc := (s.pc + 2) % 2 ^ 64 } ∧
      cycle s = .exited .unsupported16bit { s with
        fReg := { inst := w &&& 0xFFFF, len := 2 }, pc := (s.pc + 2) % 2 ^ 64 }) := by
  have hne : ¬ (s.pc % 2 ≠ 0) := by omega
  have hmod : s.memory s.pc % 2 ^ 32 = w := by
    rw [hm]
    exact Nat.mod_eq_of_lt hw
  refine ⟨?_, ?_⟩
  · intro h3
    unfold fetch
    rw [if_neg hne]
    simp only [hmod]
    rw [if_pos h3]
  · intro h3
    have hf : fetch s = .running { s with
        fReg := { inst := w &&& 0xFFFF, len := 2 }, pc := (s.pc + 2) % 2 ^ 64 } := by
      unfold fetch
      rw [if_neg hne]
      simp only [hmod]
      rw [if_neg h3]
    have hd : decode { s with
        fReg := { inst := w &&& 0xFFFF, len := 2 }, pc := (s.pc + 2) % 2 ^ 64 }
        = .exited .unsupported16bit { s with
            fReg := { inst := w &&& 0xFFFF, len := 2 }, pc := (s.pc + 2) % 2 ^ 64 } := by
      unfold decode
      rw [if_neg (show ¬ ((2 : Nat) = 4) by decide)]
    refine ⟨hf, hd, ?_⟩
    unfold cycle
    rw [hf]
    simp only [hd]

/-- Witness of C18 in the state `fetched 0x00000001` (pc = 4, the 16-bit
pattern 0x0001 at every address): the cycle ends in the 16-bit-unsupported
exit with pc = 6. -/
theorem fetch_length_witness :
    (fetched 0x00000001).pc % 2 = 0 ∧
    (fetched 0x00000001).memory (fetched 0x00000001).pc = 0x00000001 ∧
    0x00000001 < 2 ^ 32 ∧ 0x00000001 &&& 0x3 ≠ 0x3 ∧
    cycle (fetched 0x00000001) = .exited .unsupported16bit { fetched 0x00000001 with
      fReg := { inst := 0x0001, len := 2 }, pc := 6 } :=
  ⟨rfl, rfl, by decide, by decide,
    ((fetch_length (fetched 0x00000001) 0x00000001 rfl rfl (by decide)).2
      (by decide)).2.2⟩

/-! ## Runs from the constructor's state -/

/-- C19 (counterexample): the claim as stated fails at n = 2^62. On a memory
holding ADDI x0, x0, 0 at every address, all 2^62 cycles complete and the 64-bit
program counter has wrapped to 0, which is not 4 * 2^62. -/
theorem run_pc_wraps :
    ¬ (∀ (memory : Nat → Nat) (f : FReg) (d : DReg) (n : Nat) (s1 : Simulator),
        run n (Simulator.construct memory f d) = .running s1 →
        (∀ i, i < 32 → s1.reg i = 0) ∧ s1.pc = 4 * n) := by
  intro h
  have h1 := (h (constMemory 0x00000013) { inst := 0, len := 0 }
    { inst := .UNKNOWN, dest := none, op1 := none, op2 := none, offset := none }
    (4611686018427387903 + 1) _
    (run_addi_nop { inst := 0, len := 0 }
      { inst := .UNKNOWN, dest := none, op1 := none, op2 := none, offset := none }
      4611686018427387903)).2
  exact absurd h1 (by decide)

/-- C19 (amended): from the constructor's state (pc = 0, all registers 0), for
every memory content and every n, if the first n cycles complete then after
them every register is still 0, the memory is the one given, and
pc = 4 * n modulo 2^64 (so pc = 4 * n for n < 2^62); the same holds after each
earlier cycle, so every register that `decode` reads in these cycles holds 0.
Execute, memory-access and write-back change no state. -/
theorem run_from_construct (memory : Nat → Nat) (f : FReg) (d : DReg) (n : Nat)
    (s1 : Simulator) (h : run n (Simulator.construct memory f d) = .running s1) :
    (∀ i, s1.reg i = 0) ∧ s1.memory = memory ∧
    s1.pc = (4 * n) % 2 ^ 64 ∧ (n < 2 ^ 62 → s1.pc = 4 * n) ∧
    (∀ k, k ≤ n → ∃ sk, run k (Simulator.construct memory f d) = .running sk ∧
      (∀ i, sk.reg i = 0) ∧ sk.pc = (4 * k) % 2 ^ 64) ∧
    (∀ s : Simulator, writeBack (memoryAccess (excecute s)) = s) := by
  have hall : ∀ k (sk : Simulator), run k (Simulator.construct memory f d) = .running sk →
      (∀ i, sk.reg i = 0) ∧ sk.pc = (4 * k) % 2 ^ 64 := by
    intro k sk hk
    refine ⟨?_, run_running_pc k rfl hk⟩
    intro i
    rw [(run_running_reg k hk).1]
    rfl
  have hpc := (hall n s1 h).2
  refine ⟨(hall n s1 h).1, (run_running_reg n h).2, hpc, ?_, ?_, ?_⟩
  · intro hn
    rw [hpc]
    omega
  · intro k hk
    obtain ⟨sk, hsk⟩ := run_running_earlier n h k hk
    exact ⟨sk, hsk, hall k sk hsk⟩
  · intro s
    rfl

/-- Witness of C19 (amended): three completed cycles on a memory holding
ADDI x0, x0, 0 everywhere end with pc = 12. -/
theorem run_from_construct_witness :
    run 3 (Simulator.construct (constMemory 0x00000013) { inst := 0, len := 0 }
      { inst := .UNKNOWN, dest := none, op1 := none, op2 := none, offset := none })
      = .running
        { pc := (4 * 3) % 2 ^ 64, reg := fun _ => 0,
          fReg := { inst := 0x00000013, len := 4 },
          dReg := { inst := .ADDI, dest := some 0, op1 := some 0, op2 := some 0,
                    offset := none },
          memory := constMemory 0x00000013 } ∧
    (4 * 3) % 2 ^ 64 = 4 * 3 :=
  ⟨run_addi_nop _ _ 2,
    (run_from_construct (constMemory 0x00000013) { inst := 0, len := 0 }
      { inst := .UNKNOWN, dest := none, op1 := none, op2 := none, offset := none } 3 _
      (run_addi_nop _ _ 2)).2.2.2.1 (by decide)⟩

/-! ## SLLI -/

/-- C20: for every state whose fetch record holds a 32-bit word of length 4 with
opcode `OP_IMM` and funct3 = 1, `decode` succeeds with variant SLLI,
op1 = reg[rs1], dest = rd and op2 = bits [25:20] of the word, whatever bits
[31:26] are: this case has no test of the top six bits, unlike funct3 = 5. -/
theorem decode_slli_any_top_bits (s : Simulator) (hlen : s.fReg.len = 4)
    (hinst : s.fReg.inst < 2 ^ 32) (hop : opcode s.fReg.inst = OP_IMM)
    (h3 : funct3 s.fReg.inst = 1) :
    decode s = .running { s with dReg :=
      { inst := .SLLI, dest := some (rd s.fReg.inst : Nat),
        op1 := some (s.reg (rs1 s.fReg.inst)),
        op2 := some (((s.fReg.inst >>> 20) &&& 0x3F : Nat) : Int),
        offset := none } } ∧
    decode s ≠ .exited .unknownFunct7 s ∧ decode s ≠ .exited .unknownFunct3 s := by
  have hd : decode s = .running { s with dReg :=
      { inst := .SLLI, dest := some (rd s.fReg.inst : Nat),
        op1 := some (s.reg (rs1 s.fReg.inst)),
        op2 := some (((s.fReg.inst >>> 20) &&& 0x3F : Nat) : Int),
        offset := none } } := by
    simp [decode, hlen, decode_switch_OP_IMM _ _ hop, decode_OP_IMM, h3,
      decode_commit, instnameOf, Inst.ordinal, INSTNAME, and64_imm_i _ hinst]
  refine ⟨hd, ?_, ?_⟩
  · rw [hd]
    intro h
    cases h
  · rw [hd]
    intro h
    cases h

/-- Witness of C20 at the word 0xFFF01013 (funct3 = 1, bits [31:26] = 0x3F):
SLLI with op2 = 63. -/
theorem decode_slli_any_top_bits_witness :
    (fetched 0xFFF01013).fReg.len = 4 ∧ (fetched 0xFFF01013).fReg.inst < 2 ^ 32 ∧
    opcode (fetched 0xFFF01013).fReg.inst = OP_IMM ∧
    funct3 (fetched 0xFFF01013).fReg.inst = 1 ∧
    (0xFFF01013 >>> 26) &&& 0x3F = 0x3F ∧
    decode (fetched 0xFFF01013) = .running { fetched 0xFFF01013 with dReg :=
      { inst := .SLLI, dest := some 0, op1 := some 0, op2 := some 63, offset := none } } :=
  ⟨rfl, by decide, rfl, rfl, rfl,
    (decode_slli_any_top_bits (fetched 0xFFF01013) rfl (by decide) rfl rfl).1⟩

end RISCV
